import Mathlib

/-!
Verification development for the geoalchemy2 spatial-element codec.

The definitions below are a shallow embedding of `geoalchemy2/elements.py`
(the `WKTElement`, `WKBElement` and `RasterElement` classes and their common
base `_SpatialElement`) and of the raster WKB decoder from
`tests/gallery/test_decipher_raster.py` (`wkbHeader`, `read_band`,
`wkbImage`, `_PTYPE`).

Modelling conventions:
* Python `bytes`/`memoryview` values are `List Nat` with every entry `< 256`;
  Python `str` hex payloads are `List Char`.
* `struct.unpack`/`struct.pack`/`int.to_bytes` are modelled over `Nat`/`Int`
  with explicit positional arithmetic (no bitvectors).
* Fallible Python code (exceptions) is modelled with `Except PyErr`/`Option`.
* Python string/int helpers (`binascii.unhexlify`, `binascii.hexlify`,
  `str.lower`, `str.split`, `int(...)`) are modelled for ASCII text, which is
  the alphabet of hex payloads and EWKT headers.
-/

set_option maxRecDepth 16384

namespace Geo

/-- Little-endian value of a byte list (least significant byte first). -/
def bytesToNatLE : List Nat → Nat
  | [] => 0
  | b :: rest => b + 256 * bytesToNatLE rest

/-- `struct.unpack` of an unsigned integer under the given endianness. -/
def unpackNat (little : Bool) (bs : List Nat) : Nat :=
  if little then bytesToNatLE bs else bytesToNatLE bs.reverse

/-- Little-endian byte encoding of `v` on `w` bytes. -/
def natToBytesLE : Nat → Nat → List Nat
  | 0, _ => []
  | w + 1, v => v % 256 :: natToBytesLE w (v / 256)

/-- `int.to_bytes(w, endian)` / `struct.pack` of an unsigned integer whose
value is known to fit in `w` bytes (all call sites mask or bound the value). -/
def natToBytes (little : Bool) (w v : Nat) : List Nat :=
  if little then natToBytesLE w v else (natToBytesLE w v).reverse

/-- `struct.pack("<I" or ">I", v)` / `int.to_bytes(4, ...)` for a Python int:
raises (`none`) outside `[0, 2^32)`. -/
def intToBytes4 (little : Bool) (v : Int) : Option (List Nat) :=
  if 0 ≤ v ∧ v < 4294967296 then some (natToBytes little 4 v.toNat) else none

/-- Reinterpret an unsigned byte as signed (`struct` format `"b"`). -/
def toSigned8 (v : Nat) : Int := if v < 128 then (v : Int) else (v : Int) - 256

/-- Reinterpret an unsigned 16-bit value as signed (`struct` format `"h"`). -/
def toSigned16 (v : Nat) : Int :=
  if v < 32768 then (v : Int) else (v : Int) - 65536

/-- Reinterpret an unsigned 32-bit value as signed (`struct` format `"i"`). -/
def toSigned32 (v : Nat) : Int :=
  if v < 2147483648 then (v : Int) else (v : Int) - 4294967296

/-- Value of one hex digit (`0-9`, `a-f`, `A-F`), as accepted by
`binascii.unhexlify`. -/
def hexDigitVal (c : Char) : Option Nat :=
  if 48 ≤ c.toNat ∧ c.toNat ≤ 57 then some (c.toNat - 48)
  else if 97 ≤ c.toNat ∧ c.toNat ≤ 102 then some (c.toNat - 87)
  else if 65 ≤ c.toNat ∧ c.toNat ≤ 70 then some (c.toNat - 55)
  else none

/-- `binascii.unhexlify`: fails on odd length or on a non-hex character. -/
def unhexlify : List Char → Option (List Nat)
  | [] => some []
  | [_] => none
  | c1 :: c2 :: rest =>
    match hexDigitVal c1, hexDigitVal c2, unhexlify rest with
    | some hi, some lo, some bs => some ((16 * hi + lo) :: bs)
    | _, _, _ => none

/-- Lowercase hex digit for a value `< 16` (the wildcard line is only reached
at `15`, matching `binascii.hexlify`'s lowercase alphabet). -/
def hexDigitChar : Nat → Char
  | 0 => '0' | 1 => '1' | 2 => '2' | 3 => '3' | 4 => '4'
  | 5 => '5' | 6 => '6' | 7 => '7' | 8 => '8' | 9 => '9'
  | 10 => 'a' | 11 => 'b' | 12 => 'c' | 13 => 'd' | 14 => 'e'
  | _ => 'f'

/-- Two lowercase hex characters for one byte. -/
def hexByte (b : Nat) : List Char := [hexDigitChar (b / 16), hexDigitChar (b % 16)]

/-- `binascii.hexlify(...).decode()` (always lowercase). -/
def hexlify (bs : List Nat) : List Char := (bs.map hexByte).flatten

/-- ASCII model of Python `str.lower` on one character. -/
def lowerChar (c : Char) : Char :=
  if 65 ≤ c.toNat ∧ c.toNat ≤ 90 then Char.ofNat (c.toNat + 32) else c

/-- ASCII model of Python `str.lower`. -/
def lowerStr (s : List Char) : List Char := s.map lowerChar

/-- The Python exceptions the embedded code can raise.  Constructors carry the
numeric facts the corresponding messages cite.  `MalformedInput`-kind errors
(buffer too short / bad marker values at a decode stage) are classified by
`PyErr.isMalformedInput` below. -/
inductive PyErr where
  | indexError
  | structError
  | binasciiError
  | overflowError
  | argumentError
  | rasterHexTooShort (got need : Nat)
  | rasterBinTooShort (got need : Nat)
  | rasterBadHex
  | rasterBadByteOrder (b : Nat)
  | rasterSridBytes (got : Nat)
  | hdrTooShort (got need : Nat)
  | hdrBadEndianness (e : Int)
  | hdrBadDims (w h : Nat)
  | hdrNoBands
  | imageBadHex
  | bandHeaderShort
  | badPixType (pixtype : Int)
  | bandTooShort (got need : Nat)
  deriving DecidableEq

/-- Which errors are of the spec's `MalformedInput` kind: a buffer too short
for a required fixed-size field, or a malformed fixed field (endianness
marker, hex text) at some decode stage. -/
def PyErr.isMalformedInput : PyErr → Bool
  | .rasterHexTooShort _ _ => true
  | .rasterBinTooShort _ _ => true
  | .rasterBadHex => true
  | .rasterBadByteOrder _ => true
  | .rasterSridBytes _ => true
  | .hdrTooShort _ _ => true
  | .hdrBadEndianness _ => true
  | .imageBadHex => true
  | .bandHeaderShort => true
  | .bandTooShort _ _ => true
  | .indexError => true
  | .structError => true
  | .binasciiError => true
  | _ => false

/-- Which errors are of the spec's `UnsupportedPixelType` kind. -/
def PyErr.isUnsupportedPixelType : PyErr → Bool
  | .badPixType _ => true
  | _ => false

/-- WKB payload as held by `WKBElement.data`: either a hex string
(`str`, the SpatiaLite case) or raw bytes (`bytes`/`memoryview`). -/
inductive GeomData where
  | str (s : List Char)
  | bin (b : List Nat)
  deriving DecidableEq

/-- `WKBElement` after construction (`extended` is always resolved to a
boolean by `__init__`). -/
structure WKBElement where
  data : GeomData
  srid : Int
  extended : Bool
  deriving DecidableEq

/-- `WKBElement._wkb_to_hex(self.data)`: the canonical description string. -/
def WKBElement.desc (e : WKBElement) : List Char :=
  match e.data with
  | .str s => lowerStr s
  | .bin b => hexlify b

/-- Second half of `WKBElement.__init__` once the 9-byte header prefix has
been sliced out of the payload: reads the byte order, the type word and (when
needed) the embedded SRID.  `header` is `data[:9]` (bytes case) or
`unhexlify(data[:18])` (hex case) and may be shorter than 9 bytes. -/
def mkWKBFromHeader (data : GeomData) (srid : Int) (extended : Option Bool)
    (header : List Nat) : Except PyErr WKBElement :=
  match header with
  | [] => .error .indexError
  | byteOrder :: rest =>
    let little := byteOrder != 0
    let wkbType := rest.take 4
    let wkbSrid := rest.drop 4
    let wkbTypeInt := if wkbType.length = 4 then unpackNat little wkbType else 0
    let ext : Bool :=
      match extended with
      | none => if wkbTypeInt = 0 then false else wkbTypeInt &&& 536870912 != 0
      | some b => b
    if ext ∧ srid = -1 then
      if wkbSrid.length = 4 then
        .ok ⟨data, Int.ofNat (unpackNat little wkbSrid), ext⟩
      else .error .structError
    else .ok ⟨data, srid, ext⟩

/-- `WKBElement.__init__(data, srid, extended)`.  The header is parsed (and
can raise) exactly when `srid == -1 or extended is None or extended`. -/
def mkWKBElement (data : GeomData) (srid : Int) (extended : Option Bool) :
    Except PyErr WKBElement :=
  if srid = -1 ∨ extended = none ∨ extended = some true then
    match data with
    | .str s =>
      match unhexlify (s.take 18) with
      | none => .error .binasciiError
      | some header => mkWKBFromHeader data srid extended header
    | .bin b => mkWKBFromHeader data srid extended (b.take 9)
  else
    .ok ⟨data, srid, extended.getD false⟩

/-- Shared first half of `as_wkb`/`as_ewkb`: byte order marker and the (up to
4-byte) type word, read from `data[:5]` / `unhexlify(data[:10])`. -/
def wkbByteOrderAndType (data : GeomData) : Except PyErr (Nat × List Nat) :=
  match data with
  | .str s =>
    match unhexlify (s.take 10) with
    | none => .error .binasciiError
    | some [] => .error .indexError
    | some (b :: rest) => .ok (b, rest.take 4)
  | .bin [] => .error .indexError
  | .bin (b :: rest) => .ok (b, rest.take 4)

/-- `WKBElement.as_wkb`: clears bit 29 (`wkb_type_int &= 3758096383`) and
removes the 4 embedded SRID bytes when `extended`; the masked type word is
`< 2^32`, so `int.to_bytes(4, ...)` cannot overflow. -/
def WKBElement.asWkb (e : WKBElement) : Except PyErr WKBElement :=
  if e.extended then
    match wkbByteOrderAndType e.data with
    | .error er => .error er
    | .ok (byteOrder, wkbType) =>
      let little := byteOrder != 0
      let t := if wkbType.length = 4 then unpackNat little wkbType else 0
      let t2 := t &&& 3758096383
      let newData : GeomData :=
        match e.data with
        | .str s => .str (s.take 2 ++ hexlify (natToBytes little 4 t2) ++ s.drop 18)
        | .bin b => .bin (b.take 1 ++ natToBytes little 4 t2 ++ b.drop 9)
      mkWKBElement newData e.srid (some false)
  else
    mkWKBElement e.data e.srid none

/-- `WKBElement.as_ewkb`: sets bit 29 (`wkb_type_int |= 536870912`) and
inserts the 4 SRID bytes after the type word when not `extended` and
`srid != -1`.  Packing the SRID raises (`OverflowError` for the hex path via
`int.to_bytes`, `struct.error` for the bytes path) outside `[0, 2^32)`. -/
def WKBElement.asEwkb (e : WKBElement) : Except PyErr WKBElement :=
  if ¬e.extended ∧ e.srid ≠ -1 then
    match wkbByteOrderAndType e.data with
    | .error er => .error er
    | .ok (byteOrder, wkbType) =>
      let little := byteOrder != 0
      let t := if wkbType.length = 4 then unpackNat little wkbType else 0
      let t2 := t ||| 536870912
      match e.data with
      | .str s =>
        match intToBytes4 little e.srid with
        | none => .error .overflowError
        | some sridBytes =>
          mkWKBElement
            (.str (s.take 2 ++ hexlify (natToBytes little 4 t2)
              ++ hexlify sridBytes ++ s.drop 10))
            e.srid (some true)
      | .bin b =>
        match intToBytes4 little e.srid with
        | none => .error .structError
        | some sridBytes =>
          mkWKBElement
            (.bin (b.take 1 ++ natToBytes little 4 t2 ++ sridBytes ++ b.drop 5))
            e.srid (some true)
  else
    mkWKBElement e.data e.srid none

/-- Python `str.split(sep)` for a one-character separator. -/
def pySplit (sep : Char) : List Char → List (List Char)
  | [] => [[]]
  | c :: rest =>
    let r := pySplit sep rest
    if c = sep then [] :: r
    else
      match r with
      | h :: t => (c :: h) :: t
      | [] => [[c]]

/-- ASCII digit '0'-'9'. -/
def isAsciiDigit (c : Char) : Bool := 48 ≤ c.toNat && c.toNat ≤ 57

/-- Python whitespace stripped by `int(str)`. -/
def isPySpace (c : Char) : Bool :=
  c = ' ' || c = '\t' || c = '\n' || c = '\x0d' || c = '\x0b' || c = '\x0c'

/-- Digit-run parser for Python `int(str)`: a non-empty ASCII digit string in
which single underscores may separate digits (`int("1_0") == 10`), but may not
lead, trail or repeat. -/
def parseDigitsCore : List Char → Nat → Option Nat
  | [], acc => some acc
  | c :: rest, acc =>
    if c = '_' then
      match rest with
      | [] => none
      | c2 :: rest2 =>
        if isAsciiDigit c2 then parseDigitsCore rest2 (acc * 10 + (c2.toNat - 48))
        else none
    else if isAsciiDigit c then parseDigitsCore rest (acc * 10 + (c.toNat - 48))
    else none

/-- The digit part of Python `int(str)` (no sign, no whitespace; may not start
with an underscore). -/
def parseDigits : List Char → Option Nat
  | [] => none
  | c :: rest => if c = '_' then none else parseDigitsCore (c :: rest) 0

/-- ASCII model of Python `int(str)`: surrounding whitespace, an optional
sign, then a digit run. -/
def pyInt (s : List Char) : Option Int :=
  match ((s.dropWhile isPySpace).reverse.dropWhile isPySpace).reverse with
  | [] => none
  | c :: rest =>
    if c = '-' then (parseDigits rest).map (fun n => -(n : Int))
    else if c = '+' then (parseDigits rest).map (fun n => (n : Int))
    else (parseDigits (c :: rest)).map (fun n => (n : Int))

/-- Fuel-driven decimal digit writer (structural recursion, so concrete
values reduce in the kernel).  The fuel only needs to dominate `n` since the
recursion divides `n` by 10. -/
def natDecimalAux : Nat → Nat → List Char
  | 0, _ => []
  | fuel + 1, n =>
    if n = 0 then []
    else natDecimalAux fuel (n / 10) ++ [hexDigitChar (n % 10)]

/-- Decimal digits of a natural number, most significant first (empty for 0). -/
def natDecimalCore (n : Nat) : List Char := natDecimalAux n n

/-- Decimal rendering of a natural number (Python `str(int)` for `n >= 0`). -/
def natDecimal (n : Nat) : List Char :=
  if n = 0 then ['0'] else natDecimalCore n

/-- Decimal rendering of a Python int (`f"{srid}"`). -/
def intDecimal (i : Int) : List Char :=
  if i < 0 then '-' :: natDecimal i.natAbs else natDecimal i.toNat

/-- `WKTElement` after construction. -/
structure WKTElement where
  data : List Char
  srid : Int
  extended : Bool
  deriving DecidableEq

/-- `WKTElement.desc` is just the stored text. -/
def WKTElement.desc (e : WKTElement) : List Char := e.data

/-- `WKTElement.__init__(data, srid, extended)`: when flagged (or detected)
extended and no explicit SRID was given, the `SRID=<int>;` header is parsed;
a malformed header raises `ArgumentError`. -/
def mkWKTElement (data : List Char) (srid : Int) (extended : Option Bool) :
    Except PyErr WKTElement :=
  let ext : Bool :=
    match extended with
    | none => data.take 5 = "SRID=".toList
    | some b => b
  if ext ∧ srid = -1 then
    match pySplit ';' data with
    | [header, _body] =>
      match pyInt (header.drop 5) with
      | some n => .ok ⟨data, n, ext⟩
      | none => .error .argumentError
    | _ => .error .argumentError
  else
    .ok ⟨data, srid, ext⟩

/-- `re.match` of `_REMOVE_SRID = (SRID=([0-9]+); ?)?(.*)` against `s`,
returning what the optional first group consumed, when it matches: the
literal `SRID=`, a non-empty greedy digit run, `;`, then at most one space.
Backtracking cannot produce any other parse because `;` is not a digit. -/
def sridMarkerDrop (s : List Char) : Option (List Char) :=
  if s.take 5 = "SRID=".toList then
    let rest := s.drop 5
    let ds := rest.takeWhile fun c => isAsciiDigit c
    if ds.isEmpty then none
    else
      match rest.drop ds.length with
      | c :: r2 =>
        if c = ';' then some (if r2.head? = some ' ' then r2.tail else r2)
        else none
      | [] => none
  else none

/-- `group(3)` of the `_REMOVE_SRID` match: the rest of the line after the
optional SRID marker (`.*` stops at a newline). -/
def removeSridGroup3 (s : List Char) : List Char :=
  match sridMarkerDrop s with
  | some rest => rest.takeWhile fun c => c ≠ '\n'
  | none => s.takeWhile fun c => c ≠ '\n'

/-- `WKTElement.as_wkt`: strips the `SRID=<n>;` prefix (via `_REMOVE_SRID`)
when extended. -/
def WKTElement.asWkt (e : WKTElement) : Except PyErr WKTElement :=
  if e.extended then
    mkWKTElement (removeSridGroup3 e.data) e.srid (some false)
  else
    mkWKTElement e.data e.srid (some e.extended)

/-- `WKTElement.as_ewkt`: prepends `SRID=<srid>;` when not extended and
`srid != -1` (the new element re-parses its own header since it is built
with the default `srid=-1`). -/
def WKTElement.asEwkt (e : WKTElement) : Except PyErr WKTElement :=
  if ¬e.extended ∧ e.srid ≠ -1 then
    mkWKTElement ("SRID=".toList ++ intDecimal e.srid ++ [';'] ++ e.data)
      (-1) (some true)
  else
    mkWKTElement e.data e.srid (some e.extended)

/-- Raster payload input: hex text or raw bytes/memoryview. -/
inductive RasterInput where
  | str (s : List Char)
  | bin (b : List Nat)
  deriving DecidableEq

/-- `RasterElement` after construction: `data` is text, `extended` is always
`True`. -/
structure RasterElement where
  data : List Char
  srid : Int
  extended : Bool
  deriving DecidableEq

/-- `RasterElement.desc` is the stored text. -/
def RasterElement.desc (e : RasterElement) : List Char := e.data

/-- Shared tail of `RasterElement.__init__`: endianness check, SRID
extraction, and storage of the textual payload `stored`. -/
def mkRasterFromHeader (stored : List Char) (binData : List Nat) :
    Except PyErr RasterElement :=
  let byteOrder := binData.getD 0 0
  if byteOrder ≠ 0 ∧ byteOrder ≠ 1 then .error (.rasterBadByteOrder byteOrder)
  else
    let little := byteOrder == 1
    let sridBytes := (binData.drop 53).take 4
    if sridBytes.length ≠ 4 then .error (.rasterSridBytes sridBytes.length)
    else .ok ⟨stored, toSigned32 (unpackNat little sridBytes), true⟩

/-- `RasterElement.__init__(data)`: checks the 61-byte minimum header length
(122 hex characters for text input, of which only the first 122 are hex
decoded), validates the endianness byte, and reads the SRID as a signed
32-bit integer from bytes 53..56.  Hex input is stored as given; binary input
is stored as its (lowercase) hexlified text. -/
def mkRasterElement (data : RasterInput) : Except PyErr RasterElement :=
  match data with
  | .str s =>
    if s.length < 122 then .error (.rasterHexTooShort s.length 122)
    else
      match unhexlify (s.take 122) with
      | none => .error .rasterBadHex
      | some binData => mkRasterFromHeader s binData
  | .bin b =>
    if b.length < 61 then .error (.rasterBinTooShort b.length 61)
    else mkRasterFromHeader (hexlify b) b

/-! Raster WKB decoding (`tests/gallery/test_decipher_raster.py`). -/

/-- Parsed fixed 61-byte raster header (`wkbHeader`).  The six affine double
fields are kept as their raw 64-bit unsigned patterns: no caller interprets
them numerically. -/
structure RasterHeader where
  endianness : Int
  version : Nat
  nbands : Nat
  scaleX : Nat
  scaleY : Nat
  ipX : Nat
  ipY : Nat
  skewX : Nat
  skewY : Nat
  srid : Int
  width : Nat
  height : Nat
  deriving DecidableEq

/-- `_ENDIANNESS[e]` selector: `"<"` (little) for 1, `">"` (big) for 0.  Used
only after `wkbHeader` has validated `e ∈ {0, 1}`. -/
def fmtLittle (e : Int) : Bool := e == 1

/-- `wkbHeader(raw)`: parses and validates the fixed 61-byte raster header. -/
def wkbHeader (raw : List Nat) : Except PyErr RasterHeader :=
  if raw.length < 61 then .error (.hdrTooShort raw.length 61)
  else
    let e := toSigned8 (raw.getD 0 0)
    if e ≠ 0 ∧ e ≠ 1 then .error (.hdrBadEndianness e)
    else
      let little := fmtLittle e
      let u16 := fun off => unpackNat little ((raw.drop off).take 2)
      let u64 := fun off => unpackNat little ((raw.drop off).take 8)
      let width := u16 57
      let height := u16 59
      let nbands := u16 3
      if width = 0 ∨ height = 0 then .error (.hdrBadDims width height)
      else if nbands = 0 then .error .hdrNoBands
      else
        .ok ⟨e, u16 1, nbands, u64 5, u64 13, u64 21, u64 29, u64 37, u64 45,
          toSigned32 (unpackNat little ((raw.drop 53).take 4)), width, height⟩

/-- The (unvalidated) field projection of the 61-byte raster header, used to
state what `wkbHeader` returns when its checks pass. -/
def rasterHeaderOf (raw : List Nat) : RasterHeader :=
  let e := toSigned8 (raw.getD 0 0)
  let little := fmtLittle e
  ⟨e, unpackNat little ((raw.drop 1).take 2),
    unpackNat little ((raw.drop 3).take 2),
    unpackNat little ((raw.drop 5).take 8),
    unpackNat little ((raw.drop 13).take 8),
    unpackNat little ((raw.drop 21).take 8),
    unpackNat little ((raw.drop 29).take 8),
    unpackNat little ((raw.drop 37).take 8),
    unpackNat little ((raw.drop 45).take 8),
    toSigned32 (unpackNat little ((raw.drop 53).take 4)),
    unpackNat little ((raw.drop 57).take 2),
    unpackNat little ((raw.drop 59).take 2)⟩

/-- One decoded pixel sample.  Integer formats carry their value; the float
formats `"f"`/`"d"` carry the raw 32/64-bit pattern. -/
inductive PixValue where
  | bool (x : Bool)
  | int (x : Int)
  | f32 (bits : Nat)
  | f64 (bits : Nat)
  deriving DecidableEq

/-- The supported `_PTYPE` keys; 9 is deliberately absent. -/
def pixSupported (p : Int) : Bool :=
  p == 0 || p == 1 || p == 2 || p == 3 || p == 4 || p == 5 || p == 6 ||
  p == 7 || p == 8 || p == 10 || p == 11

/-- Sample size in bytes (third component of `_PTYPE[p]`). -/
def psizeOf : Nat → Nat
  | 0 => 1 | 1 => 1 | 2 => 1 | 3 => 1 | 4 => 1
  | 5 => 2 | 6 => 2
  | 7 => 4 | 8 => 4
  | 10 => 4
  | 11 => 8
  | _ => 0

/-- `struct.unpack` of one sample with the `_PTYPE[p]` format character. -/
def decodeSample (little : Bool) (p : Nat) (bs : List Nat) : PixValue :=
  match p with
  | 0 => .bool (bs.getD 0 0 != 0)
  | 3 => .int (toSigned8 (bs.getD 0 0))
  | 1 => .int (bs.getD 0 0)
  | 2 => .int (bs.getD 0 0)
  | 4 => .int (bs.getD 0 0)
  | 5 => .int (toSigned16 (unpackNat little bs))
  | 6 => .int (unpackNat little bs)
  | 7 => .int (toSigned32 (unpackNat little bs))
  | 8 => .int (unpackNat little bs)
  | 10 => .f32 (unpackNat little bs)
  | _ => .f64 (unpackNat little bs)

/-- `read_band(data, offset, pixtype, height, width, endianness)`: one
metadata byte at `offset`, then `width*height*psize` sample bytes reshaped
row-major into `height` rows of `width` samples. -/
def readBand (data : List Nat) (offset : Nat) (pixtype : Int)
    (height width : Nat) (endianness : Int) :
    Except PyErr (List (List PixValue)) :=
  if ¬pixSupported pixtype then .error (.badPixType pixtype)
  else
    let psize := psizeOf pixtype.toNat
    let required := offset + 1 + width * height * psize
    if data.length < required then .error (.bandTooShort data.length required)
    else
      let little := fmtLittle endianness
      let pixData := (data.drop (offset + 1)).take (width * height * psize)
      .ok ((List.range height).map fun i =>
        (List.range width).map fun j =>
          decodeSample little pixtype.toNat
            ((pixData.drop ((i * width + j) * psize)).take psize))

/-- The band loop of `wkbImage`: for each remaining band, check that a
metadata byte is available, derive `pixtype = band_type - 64` (the metadata
byte is read signed), validate it, decode via `read_band`, and advance the
offset by `1 + width*height*psize`. -/
def readBands (raw : List Nat) (e : Int) (width height : Nat) :
    Nat → Nat → Except PyErr (List (List (List PixValue)))
  | _, 0 => .ok []
  | offset, n + 1 =>
    if offset + 1 ≥ raw.length then .error .bandHeaderShort
    else
      let bandType := toSigned8 (raw.getD offset 0)
      let pixtype := bandType - 64
      if ¬pixSupported pixtype then .error (.badPixType pixtype)
      else
        match readBand raw offset pixtype height width e with
        | .error er => .error er
        | .ok band =>
          let psize := psizeOf pixtype.toNat
          match readBands raw e width height
            (offset + 1 + width * height * psize) n with
          | .error er => .error er
          | .ok rest => .ok (band :: rest)

/-- `wkbImage(raster_data)` (pure-Python path, `use_numpy=False`): hex decode
if needed, parse the header, then decode `nbands` bands starting at byte
offset 61. -/
def wkbImage (rasterData : RasterInput) :
    Except PyErr (List (List (List PixValue))) :=
  match (match rasterData with
         | .str s =>
           match unhexlify s with
           | none => Except.error PyErr.imageBadHex
           | some raw => Except.ok raw
         | .bin b => Except.ok b) with
  | .error er => .error er
  | .ok raw =>
    match wkbHeader raw with
    | .error er => .error er
    | .ok h => readBands raw h.endianness h.width h.height 61 h.nbands

/-! The common `_SpatialElement` view: equality semantics. -/

/-- A constructed public spatial element (any of the three concrete classes
sharing `_SpatialElement.__eq__`). -/
inductive SpatialElement where
  | wkt (e : WKTElement)
  | wkb (e : WKBElement)
  | rast (e : RasterElement)
  deriving DecidableEq

def SpatialElement.srid : SpatialElement → Int
  | .wkt e => e.srid
  | .wkb e => e.srid
  | .rast e => e.srid

def SpatialElement.extended : SpatialElement → Bool
  | .wkt e => e.extended
  | .wkb e => e.extended
  | .rast e => e.extended

def SpatialElement.desc : SpatialElement → List Char
  | .wkt e => e.desc
  | .wkb e => e.desc
  | .rast e => e.desc

/-- `_SpatialElement.__eq__` between two spatial elements (both sides have
all three attributes, so the `AttributeError` branch is unreachable). -/
def pyEqSpatial (a b : SpatialElement) : Bool :=
  a.extended == b.extended && a.srid == b.srid && a.desc == b.desc

/-- A Python attribute value, as far as `__eq__` compares them. -/
inductive PyVal where
  | noneVal
  | bool (b : Bool)
  | int (i : Int)
  | str (s : List Char)
  | other (tag : Nat)
  deriving DecidableEq

/-- Python `==` on attribute values (including the `True == 1` quirk). -/
def pyValEq : PyVal → PyVal → Bool
  | .noneVal, .noneVal => true
  | .bool a, .bool b => a == b
  | .int a, .int b => a == b
  | .bool a, .int b => (if a then (1 : Int) else 0) == b
  | .int a, .bool b => a == (if b then (1 : Int) else 0)
  | .str a, .str b => a == b
  | .other a, .other b => a == b
  | _, _ => false

/-- A foreign (non-spatial) object: each of the three attributes
`_SpatialElement.__eq__` reads may be present or missing (missing access
raises `AttributeError`). -/
structure ForeignObject where
  extendedAttr : Option PyVal
  sridAttr : Option PyVal
  descAttr : Option PyVal

/-- `_SpatialElement.__eq__(self, other)` against a foreign object: the three
comparisons short-circuit left to right, and a missing attribute raises
`AttributeError`, which the `except` clause turns into `False`. -/
def pyEqForeign (a : SpatialElement) (x : ForeignObject) : Bool :=
  match x.extendedAttr with
  | none => false
  | some xe =>
    if pyValEq (.bool a.extended) xe then
      match x.sridAttr with
      | none => false
      | some xs =>
        if pyValEq (.int a.srid) xs then
          match x.descAttr with
          | none => false
          | some xd => pyValEq (.str a.desc) xd
        else false
    else false

/-- `_SpatialElement.__ne__`: `not self.__eq__(other)`. -/
def pyNeForeign (a : SpatialElement) (x : ForeignObject) : Bool :=
  !pyEqForeign a x

instance {α β : Type} [DecidableEq α] [DecidableEq β] :
    DecidableEq (Except α β) := fun a b =>
  match a, b with
  | .ok x, .ok y =>
    if h : x = y then isTrue (by rw [h]) else isFalse (by simp [h])
  | .error x, .error y =>
    if h : x = y then isTrue (by rw [h]) else isFalse (by simp [h])
  | .ok _, .error _ => isFalse (by simp)
  | .error _, .ok _ => isFalse (by simp)

/-- The 122-character upper-case raster hex header used to refute C3 as
stated: endianness 1 (little), version 0, nbands 1, zero affine doubles,
SRID 4326 (hex `E610 0000`, upper case), width 1, height 1. -/
def c3UpperHex : List Char :=
  "0100000100".toList ++ List.replicate 96 '0' ++ "E6100000".toList ++
    "01000100".toList

/-- A concrete one-band little-endian raster: version 0, nbands 1, zero
affine doubles, SRID 4326, width 1, height 1, one 8BUI band (metadata byte
68 = 64 + 4) with a single sample byte 7.  63 bytes in total. -/
def c2Raster : List Nat :=
  [1, 0, 0, 1, 0] ++ List.replicate 48 0 ++ [230, 16, 0, 0] ++ [1, 0, 1, 0] ++
    [68, 7]

/-- The same raster with the band metadata byte 73 (= 64 + 9, the undefined
pixel type 9) and one trailing byte. -/
def c8Raster : List Nat :=
  [1, 0, 0, 1, 0] ++ List.replicate 48 0 ++ [230, 16, 0, 0] ++ [1, 0, 1, 0] ++
    [73, 0]

/-- The same raster truncated right after a valid band metadata byte
(68 = 8BUI), with no sample bytes: 62 bytes in total. -/
def c8ShortRaster : List Nat :=
  [1, 0, 0, 1, 0] ++ List.replicate 48 0 ++ [230, 16, 0, 0] ++ [1, 0, 1, 0] ++
    [68]

/-! ### Lemmas about byte packing -/

theorem length_natToBytesLE (w v : Nat) : (natToBytesLE w v).length = w := by
  induction w generalizing v with
  | zero => rfl
  | succ w ih => simp [natToBytesLE, ih]

theorem mem_natToBytesLE_lt {w v x : Nat} (h : x ∈ natToBytesLE w v) :
    x < 256 := by
  induction w generalizing v with
  | zero => simp [natToBytesLE] at h
  | succ w ih =>
    simp only [natToBytesLE, List.mem_cons] at h
    rcases h with h | h
    · omega
    · exact ih h

theorem bytesToNatLE_lt {bs : List Nat} (h : ∀ x ∈ bs, x < 256) :
    bytesToNatLE bs < 256 ^ bs.length := by
  induction bs with
  | nil => simp [bytesToNatLE]
  | cons b rest ih =>
    have hb : b < 256 := h b (List.mem_cons_self b rest)
    have hr := ih fun x hx => h x (List.mem_cons_of_mem b hx)
    simp only [bytesToNatLE, List.length_cons, pow_succ]
    calc b + 256 * bytesToNatLE rest < 256 + 256 * bytesToNatLE rest := by omega
    _ = 256 * (bytesToNatLE rest + 1) := by ring
    _ ≤ 256 * 256 ^ rest.length := by
        exact Nat.mul_le_mul_left 256 (by omega)
    _ = 256 ^ rest.length * 256 := by ring

theorem bytesToNatLE_natToBytesLE (w : Nat) {v : Nat} (h : v < 256 ^ w) :
    bytesToNatLE (natToBytesLE w v) = v := by
  induction w generalizing v with
  | zero =>
    simp only [pow_zero, Nat.lt_one_iff] at h
    simp [natToBytesLE, bytesToNatLE, h]
  | succ w ih =>
    have hv : v / 256 < 256 ^ w := by
      rw [Nat.div_lt_iff_lt_mul (by norm_num)]
      calc v < 256 ^ (w + 1) := h
      _ = 256 ^ w * 256 := by ring
    simp only [natToBytesLE, bytesToNatLE, ih hv]
    omega

theorem natToBytesLE_bytesToNatLE {bs : List Nat} (h : ∀ x ∈ bs, x < 256) :
    natToBytesLE bs.length (bytesToNatLE bs) = bs := by
  induction bs with
  | nil => rfl
  | cons b rest ih =>
    have hb : b < 256 := h b (List.mem_cons_self b rest)
    have hr := ih fun x hx => h x (List.mem_cons_of_mem b hx)
    simp only [List.length_cons, natToBytesLE, bytesToNatLE]
    have hmod : (b + 256 * bytesToNatLE rest) % 256 = b := by
      rw [Nat.add_mul_mod_self_left]
      exact Nat.mod_eq_of_lt hb
    have hdiv : (b + 256 * bytesToNatLE rest) / 256 = bytesToNatLE rest := by
      rw [Nat.add_mul_div_left _ _ (by norm_num)]
      simp [Nat.div_eq_of_lt hb]
    rw [hmod, hdiv, hr]

theorem length_natToBytes (little : Bool) (w v : Nat) :
    (natToBytes little w v).length = w := by
  cases little <;> simp [natToBytes, length_natToBytesLE]

theorem mem_natToBytes_lt {little : Bool} {w v x : Nat}
    (h : x ∈ natToBytes little w v) : x < 256 := by
  cases little <;> simp only [natToBytes, Bool.false_eq_true, if_neg, if_pos,
    List.mem_reverse, reduceIte] at h <;> exact mem_natToBytesLE_lt h

theorem unpackNat_natToBytes (little : Bool) {v : Nat} (h : v < 4294967296) :
    unpackNat little (natToBytes little 4 v) = v := by
  have h4 : v < 256 ^ 4 := by norm_num; omega
  cases little <;>
    simp [unpackNat, natToBytes, List.reverse_reverse,
      bytesToNatLE_natToBytesLE 4 h4]

theorem natToBytes_unpackNat (little : Bool) {bs : List Nat}
    (hlen : bs.length = 4) (h : ∀ x ∈ bs, x < 256) :
    natToBytes little 4 (unpackNat little bs) = bs := by
  cases little with
  | false =>
    have h' : ∀ x ∈ bs.reverse, x < 256 := fun x hx =>
      h x (List.mem_reverse.mp hx)
    have hl : bs.reverse.length = 4 := by simp [hlen]
    simp only [unpackNat, natToBytes, Bool.false_eq_true, if_neg, reduceIte]
    rw [← hl, natToBytesLE_bytesToNatLE h', List.reverse_reverse]
  | true =>
    simp only [unpackNat, natToBytes, if_pos, reduceIte]
    rw [← hlen, natToBytesLE_bytesToNatLE h]

/-! ### Lemmas about hex text -/

theorem char_eq_of_toNat_eq {c d : Char} (h : c.toNat = d.toNat) : c = d := by
  cases c; cases d
  simp only [Char.toNat] at h
  congr 1
  exact UInt32.toNat.inj h

theorem hexDigitVal_lt {c : Char} {v : Nat} (h : hexDigitVal c = some v) :
    v < 16 := by
  unfold hexDigitVal at h
  split_ifs at h <;> injection h with hv <;> omega

theorem hexDigitVal_hexDigitChar {v : Nat} (h : v < 16) :
    hexDigitVal (hexDigitChar v) = some v := by
  interval_cases v <;> decide

theorem lowerChar_hexDigit {c : Char} {v : Nat} (h : hexDigitVal c = some v) :
    lowerChar c = hexDigitChar v := by
  unfold hexDigitVal at h
  split_ifs at h with h1 h2 h3 <;> injection h with hv
  · have hc : lowerChar c = c := by
      unfold lowerChar
      rw [if_neg]
      omega
    rw [hc, ← hv]
    apply char_eq_of_toNat_eq
    obtain ⟨ha, hb⟩ := h1
    generalize hgen : c.toNat = n at ha hb ⊢
    interval_cases n <;> decide
  · have hc : lowerChar c = c := by
      unfold lowerChar
      rw [if_neg]
      omega
    rw [hc, ← hv]
    apply char_eq_of_toNat_eq
    obtain ⟨ha, hb⟩ := h2
    generalize hgen : c.toNat = n at ha hb ⊢
    interval_cases n <;> decide
  · have hc : lowerChar c = Char.ofNat (c.toNat + 32) := by
      unfold lowerChar
      rw [if_pos]
      omega
    rw [hc, ← hv]
    obtain ⟨ha, hb⟩ := h3
    generalize hgen : c.toNat = n at ha hb ⊢
    interval_cases n <;> decide

theorem lowerChar_hexDigitChar (v : Nat) :
    lowerChar (hexDigitChar v) = hexDigitChar v := by
  unfold hexDigitChar
  split <;> decide

theorem hexlify_nil : hexlify [] = [] := rfl

theorem hexlify_cons (b : Nat) (bs : List Nat) :
    hexlify (b :: bs) = hexDigitChar (b / 16) :: hexDigitChar (b % 16) :: hexlify bs := rfl

theorem hexlify_append (a b : List Nat) :
    hexlify (a ++ b) = hexlify a ++ hexlify b := by
  simp [hexlify]

theorem hexlify_length (bs : List Nat) : (hexlify bs).length = 2 * bs.length := by
  induction bs with
  | nil => rfl
  | cons b rest ih => simp [hexlify_cons, ih]; ring

theorem lowerStr_hexlify (bs : List Nat) : lowerStr (hexlify bs) = hexlify bs := by
  induction bs with
  | nil => rfl
  | cons b rest ih =>
    simp only [hexlify_cons, lowerStr, List.map_cons]
    rw [lowerChar_hexDigitChar, lowerChar_hexDigitChar]
    simpa [lowerStr] using ih

theorem unhexlify_hexlify {bs : List Nat} (h : ∀ x ∈ bs, x < 256) :
    unhexlify (hexlify bs) = some bs := by
  induction bs with
  | nil => rfl
  | cons b rest ih =>
    have hb : b < 256 := h b (List.mem_cons_self b rest)
    have hr := ih fun x hx => h x (List.mem_cons_of_mem b hx)
    rw [hexlify_cons]
    show unhexlify (_ :: _ :: _) = _
    unfold unhexlify
    rw [hexDigitVal_hexDigitChar (by omega), hexDigitVal_hexDigitChar (by omega), hr]
    simp
    omega

theorem unhexlify_cons_elim {c1 c2 : Char} {rest : List Char} {b : List Nat}
    (h : unhexlify (c1 :: c2 :: rest) = some b) :
    ∃ hi lo bs, hexDigitVal c1 = some hi ∧ hexDigitVal c2 = some lo ∧
      unhexlify rest = some bs ∧ b = (16 * hi + lo) :: bs := by
  unfold unhexlify at h
  cases hc1 : hexDigitVal c1 <;> rw [hc1] at h
  · exact absurd h (by simp)
  cases hc2 : hexDigitVal c2 <;> rw [hc2] at h
  · exact absurd h (by simp)
  cases hr : unhexlify rest <;> rw [hr] at h
  · exact absurd h (by simp)
  injection h with hb
  exact ⟨_, _, _, rfl, rfl, rfl, hb.symm⟩

theorem unhexlify_cons_cons (c1 c2 : Char) (rest : List Char) :
    unhexlify (c1 :: c2 :: rest) =
      match hexDigitVal c1, hexDigitVal c2, unhexlify rest with
      | some hi, some lo, some bs => some ((16 * hi + lo) :: bs)
      | _, _, _ => none := rfl

theorem unhexlify_length {h : List Char} {b : List Nat}
    (hh : unhexlify h = some b) : h.length = 2 * b.length := by
  induction h using unhexlify.induct generalizing b with
  | case1 =>
    injection hh with hb
    simp [← hb]
  | case2 c => exact absurd hh (by simp [unhexlify])
  | case3 c1 c2 rest hi lo bs hr hc2 hc1 ih =>
    obtain ⟨hi2, lo2, bs2, _, _, hr2, hb⟩ := unhexlify_cons_elim hh
    subst hb
    have := ih hr2
    simp only [List.length_cons]
    omega
  | case4 c1 c2 rest hfail ih =>
    obtain ⟨hi, lo, bs, hc1, hc2, hr, _⟩ := unhexlify_cons_elim hh
    exact (hfail hi lo bs hc1 hc2 hr).elim

theorem unhexlify_mem_lt {h : List Char} {b : List Nat}
    (hh : unhexlify h = some b) : ∀ x ∈ b, x < 256 := by
  induction h using unhexlify.induct generalizing b with
  | case1 =>
    injection hh with hb
    simp [← hb]
  | case2 c => exact absurd hh (by simp [unhexlify])
  | case3 c1 c2 rest hi lo bs hr hc2 hc1 ih =>
    obtain ⟨hi2, lo2, bs2, hc1b, hc2b, hr2, hb⟩ := unhexlify_cons_elim hh
    subst hb
    intro x hx
    rcases List.mem_cons.mp hx with hx | hx
    · have := hexDigitVal_lt hc1b
      have := hexDigitVal_lt hc2b
      omega
    · exact ih hr2 x hx
  | case4 c1 c2 rest hfail ih =>
    obtain ⟨hi, lo, bs, hc1, hc2, hr, _⟩ := unhexlify_cons_elim hh
    exact (hfail hi lo bs hc1 hc2 hr).elim

theorem lowerStr_unhexlify {h : List Char} {b : List Nat}
    (hh : unhexlify h = some b) : lowerStr h = hexlify b := by
  induction h using unhexlify.induct generalizing b with
  | case1 =>
    injection hh with hb
    simp [← hb, lowerStr, hexlify]
  | case2 c => exact absurd hh (by simp [unhexlify])
  | case3 c1 c2 rest hi lo bs hr hc2 hc1 ih =>
    obtain ⟨hi2, lo2, bs2, hc1b, hc2b, hr2, hb⟩ := unhexlify_cons_elim hh
    subst hb
    have hhi := hexDigitVal_lt hc1b
    have hlo := hexDigitVal_lt hc2b
    simp only [lowerStr, List.map_cons, hexlify_cons]
    rw [lowerChar_hexDigit hc1b, lowerChar_hexDigit hc2b]
    have hdiv : (16 * hi2 + lo2) / 16 = hi2 := by omega
    have hmod : (16 * hi2 + lo2) % 16 = lo2 := by omega
    rw [hdiv, hmod]
    simpa [lowerStr] using ih hr2
  | case4 c1 c2 rest hfail ih =>
    obtain ⟨hi, lo, bs, hc1, hc2, hr, _⟩ := unhexlify_cons_elim hh
    exact (hfail hi lo bs hc1 hc2 hr).elim

theorem unhexlify_append {x y : List Char} {bx : List Nat}
    (hx : unhexlify x = some bx) :
    unhexlify (x ++ y) = (unhexlify y).map (fun b => bx ++ b) := by
  induction x using unhexlify.induct generalizing bx with
  | case1 =>
    injection hx with hb
    subst hb
    simp only [List.nil_append]
    cases unhexlify y <;> simp
  | case2 c => exact absurd hx (by simp [unhexlify])
  | case3 c1 c2 rest hi lo bs hr hc2 hc1 ih =>
    obtain ⟨hi2, lo2, bs2, hc1b, hc2b, hr2, hb⟩ := unhexlify_cons_elim hx
    subst hb
    rw [List.cons_append, List.cons_append, unhexlify_cons_cons, hc1b, hc2b,
      ih hr2]
    cases hy : unhexlify y <;> simp
  | case4 c1 c2 rest hfail ih =>
    obtain ⟨hi, lo, bs, hc1, hc2, hr, _⟩ := unhexlify_cons_elim hx
    exact (hfail hi lo bs hc1 hc2 hr).elim

theorem unhexlify_take_drop {h : List Char} {b : List Nat}
    (hh : unhexlify h = some b) (k : Nat) :
    unhexlify (h.take (2 * k)) = some (b.take k) ∧
      unhexlify (h.drop (2 * k)) = some (b.drop k) := by
  induction k generalizing h b with
  | zero => simpa [unhexlify] using hh
  | succ k ih =>
    cases h with
    | nil =>
      injection hh with hb
      simp [← hb, unhexlify]
    | cons c1 t =>
      cases t with
      | nil => exact absurd hh (by simp [unhexlify])
      | cons c2 rest =>
        obtain ⟨hi, lo, bs, hc1, hc2, hr, hb⟩ := unhexlify_cons_elim hh
        subst hb
        have harith : 2 * (k + 1) = 2 * k + 1 + 1 := by ring
        rw [harith]
        simp only [List.take_succ_cons, List.drop_succ_cons]
        constructor
        · show unhexlify (c1 :: c2 :: rest.take (2 * k)) = _
          unfold unhexlify
          rw [hc1, hc2, (ih hr).1]
        · exact (ih hr).2

theorem unhexlify_take {h : List Char} {b : List Nat}
    (hh : unhexlify h = some b) (k : Nat) :
    unhexlify (h.take (2 * k)) = some (b.take k) :=
  (unhexlify_take_drop hh k).1

theorem unhexlify_drop {h : List Char} {b : List Nat}
    (hh : unhexlify h = some b) (k : Nat) :
    unhexlify (h.drop (2 * k)) = some (b.drop k) :=
  (unhexlify_take_drop hh k).2

/-! ### Lemmas about the SRID flag bit (bit 29) -/

theorem srid_bit_clear_of_and_eq_zero {t : Nat} (h : t &&& 536870912 = 0) :
    t.testBit 29 = false := by
  have h29 := congrArg (fun x => Nat.testBit x 29) h
  simpa [Nat.testBit_land, show Nat.testBit 536870912 29 = true from by decide]
    using h29

theorem and_bit29_eq_zero_of_clear {t : Nat} (h : t.testBit 29 = false) :
    t &&& 536870912 = 0 := by
  apply Nat.eq_of_testBit_eq
  intro i
  rw [Nat.testBit_land]
  rcases Nat.lt_or_ge i 30 with h30 | h30
  · have hc : Nat.testBit 536870912 i = decide (i = 29) := by
      interval_cases i <;> decide
    rw [hc]
    by_cases h29 : i = 29
    · simp [h29, h]
    · simp [h29]
  · have : Nat.testBit 536870912 i = false :=
      Nat.testBit_lt_two_pow
        (lt_of_lt_of_le (by norm_num) (Nat.pow_le_pow_right (by norm_num) h30))
    simp [this]

theorem and_bit29_ne_zero_of_set {t : Nat} (h : t.testBit 29 = true) :
    t &&& 536870912 ≠ 0 := by
  intro hz
  rw [srid_bit_clear_of_and_eq_zero hz] at h
  exact Bool.false_ne_true h

/-- Clearing bit 29 after setting it restores a type word whose bit 29 was
clear: `(t | 0x20000000) & 0xDFFFFFFF = t`. -/
theorem clear_after_set_bit29 {t : Nat} (ht : t < 4294967296)
    (hb : t.testBit 29 = false) : (t ||| 536870912) &&& 3758096383 = t := by
  apply Nat.eq_of_testBit_eq
  intro i
  rw [Nat.testBit_land, Nat.testBit_lor]
  rcases Nat.lt_or_ge i 32 with h32 | h32
  · have hc : Nat.testBit 536870912 i = decide (i = 29) := by
      interval_cases i <;> decide
    have hm : Nat.testBit 3758096383 i = decide (¬i = 29) := by
      interval_cases i <;> decide
    rw [hc, hm]
    by_cases h29 : i = 29
    · simp [h29, hb]
    · simp [h29]
  · have hpow : (4294967296 : Nat) ≤ 2 ^ i := by
      calc (4294967296 : Nat) = 2 ^ 32 := by norm_num
      _ ≤ 2 ^ i := Nat.pow_le_pow_right (by norm_num) h32
    have hti : t.testBit i = false :=
      Nat.testBit_lt_two_pow (lt_of_lt_of_le ht hpow)
    have hmi : Nat.testBit 3758096383 i = false :=
      Nat.testBit_lt_two_pow (lt_of_lt_of_le (by norm_num) hpow)
    simp [hti, hmi]

/-- Setting bit 29 after clearing it restores a type word whose bit 29 was
set: `(t & 0xDFFFFFFF) | 0x20000000 = t`. -/
theorem set_after_clear_bit29 {t : Nat} (ht : t < 4294967296)
    (hb : t.testBit 29 = true) : (t &&& 3758096383) ||| 536870912 = t := by
  apply Nat.eq_of_testBit_eq
  intro i
  rw [Nat.testBit_lor, Nat.testBit_land]
  rcases Nat.lt_or_ge i 32 with h32 | h32
  · have hc : Nat.testBit 536870912 i = decide (i = 29) := by
      interval_cases i <;> decide
    have hm : Nat.testBit 3758096383 i = decide (¬i = 29) := by
      interval_cases i <;> decide
    rw [hc, hm]
    by_cases h29 : i = 29
    · simp [h29, hb]
    · simp [h29]
  · have hpow : (4294967296 : Nat) ≤ 2 ^ i := by
      calc (4294967296 : Nat) = 2 ^ 32 := by norm_num
      _ ≤ 2 ^ i := Nat.pow_le_pow_right (by norm_num) h32
    have hti : t.testBit i = false :=
      Nat.testBit_lt_two_pow (lt_of_lt_of_le ht hpow)
    have hci : Nat.testBit 536870912 i = false :=
      Nat.testBit_lt_two_pow (lt_of_lt_of_le (by norm_num) hpow)
    simp [hti, hci]

/-- The type word with bit 29 set stays below `2^32`. -/
theorem or_bit29_lt {t : Nat} (ht : t < 4294967296) :
    t ||| 536870912 < 4294967296 := by
  have h1 : t < 2 ^ 32 := by norm_num at ht ⊢; omega
  have h2 : (536870912 : Nat) < 2 ^ 32 := by norm_num
  have := Nat.or_lt_two_pow h1 h2
  norm_num at this ⊢
  omega

theorem unpackNat_lt (little : Bool) {bs : List Nat} (hlen : bs.length = 4)
    (h : ∀ x ∈ bs, x < 256) : unpackNat little bs < 4294967296 := by
  cases little with
  | false =>
    have h' : ∀ x ∈ bs.reverse, x < 256 := fun x hx =>
      h x (List.mem_reverse.mp hx)
    have := bytesToNatLE_lt h'
    simp only [List.length_reverse, hlen] at this
    simpa [unpackNat] using this
  | true =>
    have := bytesToNatLE_lt h
    rw [hlen] at this
    simpa [unpackNat] using this


/-! ### Lemmas about raster decoding -/

theorem psizeOf_pos {p : Int} (h : pixSupported p = true) :
    1 ≤ psizeOf p.toNat := by
  unfold pixSupported at h
  simp only [Bool.or_eq_true, beq_iff_eq] at h
  rcases h with ((((((((((h | h) | h) | h) | h) | h) | h) | h) | h) | h) | h) <;>
    subst h <;> decide

theorem getD_take {l : List Nat} {n i : Nat} (h : i < n) :
    (l.take n).getD i 0 = l.getD i 0 := by
  simp [List.getD, List.getElem?_take, h]

theorem drop_take_take {l : List Nat} {N a b : Nat} (h : a + b ≤ N) :
    ((l.take N).drop a).take b = (l.drop a).take b := by
  rw [List.drop_take, List.take_take]
  congr 1
  omega

/-- `wkbHeader` returns the plain field projection once its four validation
checks pass. -/
theorem wkbHeader_eval {raw : List Nat} (hlen : 61 ≤ raw.length)
    (he : raw.getD 0 0 = 0 ∨ raw.getD 0 0 = 1)
    (hW : (rasterHeaderOf raw).width ≠ 0)
    (hH : (rasterHeaderOf raw).height ≠ 0)
    (hn : (rasterHeaderOf raw).nbands ≠ 0) :
    wkbHeader raw = .ok (rasterHeaderOf raw) := by
  have he8 : toSigned8 (raw.getD 0 0) = 0 ∨ toSigned8 (raw.getD 0 0) = 1 := by
    rcases he with h | h <;> rw [h] <;> simp [toSigned8]
  unfold rasterHeaderOf at hW hH hn
  simp only [wkbHeader]
  rw [if_neg (by omega)]
  rw [if_neg (by rcases he8 with h | h <;> rw [h] <;> simp)]
  rw [if_neg (by push_neg; exact ⟨hW, hH⟩)]
  rw [if_neg hn]
  rfl

/-- `readBand` succeeds with an `height × width` grid when the pixel type is
supported and the buffer is long enough. -/
theorem readBand_eval {data : List Nat} {offset : Nat} {pixtype : Int}
    {height width : Nat} {e : Int} (hs : pixSupported pixtype = true)
    (hlen : offset + 1 + width * height * psizeOf pixtype.toNat ≤ data.length) :
    readBand data offset pixtype height width e =
      .ok ((List.range height).map fun i =>
        (List.range width).map fun j =>
          decodeSample (fmtLittle e) pixtype.toNat
            ((((data.drop (offset + 1)).take
                (width * height * psizeOf pixtype.toNat)).drop
              ((i * width + j) * psizeOf pixtype.toNat)).take
              (psizeOf pixtype.toNat))) := by
  unfold readBand
  rw [if_neg (by rw [hs]; simp)]
  rw [if_neg (by omega)]

theorem length_readBand_grid {height width : Nat} {f : Nat → Nat → PixValue} :
    ((List.range height).map fun i => (List.range width).map fun j => f i j).length =
      height := by
  simp



set_option maxHeartbeats 2000000 in
/-- Full evaluation of `wkbImage` on a one-band raster whose header checks
pass and whose band payload is complete. -/
theorem wkbImage_one_band {raw : List Nat} {W H : Nat} {T : Int}
    (he : raw.getD 0 0 = 0 ∨ raw.getD 0 0 = 1)
    (hn : unpackNat (fmtLittle (toSigned8 (raw.getD 0 0)))
      ((raw.drop 3).take 2) = 1)
    (hWdef : unpackNat (fmtLittle (toSigned8 (raw.getD 0 0)))
      ((raw.drop 57).take 2) = W)
    (hHdef : unpackNat (fmtLittle (toSigned8 (raw.getD 0 0)))
      ((raw.drop 59).take 2) = H)
    (hW : 1 ≤ W) (hH : 1 ≤ H)
    (hTdef : toSigned8 (raw.getD 61 0) - 64 = T)
    (hTs : pixSupported T = true)
    (hlen : 62 + W * H * psizeOf T.toNat ≤ raw.length) :
    wkbImage (.bin raw) = .ok [(List.range H).map fun i =>
      (List.range W).map fun j =>
        decodeSample (fmtLittle (toSigned8 (raw.getD 0 0))) T.toNat
          ((((raw.drop 62).take (W * H * psizeOf T.toNat)).drop
            ((i * W + j) * psizeOf T.toNat)).take (psizeOf T.toNat))] := by
  have hps := psizeOf_pos hTs
  have hwhp : 1 ≤ W * H * psizeOf T.toNat :=
    Nat.mul_le_mul (Nat.mul_le_mul hW hH) hps
  have h61 : 61 ≤ raw.length := by omega
  have hwidth : (rasterHeaderOf raw).width = W := hWdef
  have hheight : (rasterHeaderOf raw).height = H := hHdef
  have hnb : (rasterHeaderOf raw).nbands = 1 := hn
  have hend : (rasterHeaderOf raw).endianness = toSigned8 (raw.getD 0 0) := rfl
  have hhdr : wkbHeader raw = .ok (rasterHeaderOf raw) :=
    wkbHeader_eval h61 he (by rw [hwidth]; omega) (by rw [hheight]; omega)
      (by rw [hnb]; omega)
  show (match wkbHeader raw with
    | Except.error er => Except.error er
    | Except.ok h =>
      readBands raw h.endianness h.width h.height 61 h.nbands) = _
  rw [hhdr]
  show readBands raw (rasterHeaderOf raw).endianness
    (rasterHeaderOf raw).width (rasterHeaderOf raw).height 61
    (rasterHeaderOf raw).nbands = _
  rw [hwidth, hheight, hnb, hend]
  show readBands raw (toSigned8 (raw.getD 0 0)) W H 61 1 = _
  rw [readBands]
  rw [if_neg (by omega)]
  rw [if_neg (by rw [hTdef, hTs]; simp)]
  rw [hTdef]
  rw [readBand_eval hTs (by omega)]
  show (match readBands raw (toSigned8 (raw.getD 0 0)) W H
      (61 + 1 + W * H * psizeOf T.toNat) 0 with
    | Except.error er => Except.error er
    | Except.ok rest => Except.ok (_ :: rest)) = _
  rw [readBands]


/-! ### Lemmas about the element constructors -/

/-- `mkWKBFromHeader` ignores `data` except to store it. -/
theorem mkWKBFromHeader_data (d d' : GeomData) (srid : Int)
    (extended : Option Bool) (header : List Nat) :
    mkWKBFromHeader d' srid extended header =
      (mkWKBFromHeader d srid extended header).map
        (fun e => ⟨d', e.srid, e.extended⟩) := by
  unfold mkWKBFromHeader
  cases header with
  | nil => rfl
  | cons byteOrder rest =>
    simp only
    split_ifs with h1 h2 <;> rfl

/-! ### Lemmas about EWKT text: digits, `int(...)`, `split`, the SRID regex -/

theorem isPySpace_false_of_digit {c : Char} (h : isAsciiDigit c = true) :
    isPySpace c = false := by
  unfold isAsciiDigit at h
  simp only [Bool.and_eq_true, decide_eq_true_eq] at h
  unfold isPySpace
  simp only [Bool.or_eq_false_iff, decide_eq_false_iff_not]
  refine ⟨⟨⟨⟨⟨?_, ?_⟩, ?_⟩, ?_⟩, ?_⟩, ?_⟩ <;> intro he <;> subst he <;>
    exact absurd h (by decide)

theorem strip_digits {ds : List Char} (hne : ds ≠ [])
    (hds : ∀ c ∈ ds, isAsciiDigit c = true) :
    ((ds.dropWhile isPySpace).reverse.dropWhile isPySpace).reverse = ds := by
  have h1 : ds.dropWhile isPySpace = ds := by
    cases ds with
    | nil => rfl
    | cons c rest =>
      rw [List.dropWhile_cons,
        isPySpace_false_of_digit (hds c (List.mem_cons_self c rest))]
      simp
  rw [h1]
  cases hrev : ds.reverse with
  | nil =>
    rw [List.reverse_eq_nil_iff] at hrev
    exact absurd hrev hne
  | cons d t =>
    have hd : d ∈ ds := by
      have : d ∈ ds.reverse := by
        rw [hrev]
        exact List.mem_cons_self d t
      exact List.mem_reverse.mp this
    rw [List.dropWhile_cons, isPySpace_false_of_digit (hds d hd)]
    simp [← hrev]

theorem pyInt_digits {ds : List Char} {n : Nat} (hne : ds ≠ [])
    (hds : ∀ c ∈ ds, isAsciiDigit c = true) (hp : parseDigits ds = some n) :
    pyInt ds = some (n : Int) := by
  have hstrip := strip_digits hne hds
  cases ds with
  | nil => exact absurd rfl hne
  | cons c rest =>
    have hc := hds c (List.mem_cons_self c rest)
    have hcm : ¬(c = '-') := by
      intro he
      subst he
      exact absurd hc (by decide)
    have hcp : ¬(c = '+') := by
      intro he
      subst he
      exact absurd hc (by decide)
    simp only [pyInt, hstrip, if_neg hcm, if_neg hcp, hp, Option.map_some]
    rfl

theorem hexDigitChar_toNat_of_lt_ten {v : Nat} (h : v < 10) :
    (hexDigitChar v).toNat = 48 + v := by
  interval_cases v <;> decide

theorem isAsciiDigit_hexDigitChar {v : Nat} (h : v < 10) :
    isAsciiDigit (hexDigitChar v) = true := by
  interval_cases v <;> decide

theorem natDecimalAux_digits (fuel : Nat) : ∀ (n : Nat),
    ∀ c ∈ natDecimalAux fuel n, isAsciiDigit c = true := by
  induction fuel with
  | zero =>
    intro n c hc
    simp [natDecimalAux] at hc
  | succ f ih =>
    intro n c hc
    rw [natDecimalAux] at hc
    split_ifs at hc with h0
    · simp at hc
    · rcases List.mem_append.mp hc with hm | hm
      · exact ih _ c hm
      · have : c = hexDigitChar (n % 10) := by simpa using hm
        subst this
        exact isAsciiDigit_hexDigitChar (Nat.mod_lt _ (by omega))

theorem natDecimalCore_digits (n : Nat) :
    ∀ c ∈ natDecimalCore n, isAsciiDigit c = true :=
  natDecimalAux_digits n n

theorem natDecimal_digits (n : Nat) :
    ∀ c ∈ natDecimal n, isAsciiDigit c = true := by
  unfold natDecimal
  split_ifs
  · simp
    decide
  · exact natDecimalCore_digits n

theorem natDecimalCore_ne_nil {n : Nat} (h : 0 < n) : natDecimalCore n ≠ [] := by
  cases n with
  | zero => omega
  | succ m =>
    unfold natDecimalCore natDecimalAux
    simp

theorem natDecimal_ne_nil (n : Nat) : natDecimal n ≠ [] := by
  unfold natDecimal
  split_ifs
  · simp
  · exact natDecimalCore_ne_nil (by omega)

theorem parseDigitsCore_digits {ds : List Char}
    (hds : ∀ c ∈ ds, isAsciiDigit c = true) (acc : Nat) :
    parseDigitsCore ds acc =
      some (ds.foldl (fun a c => a * 10 + (c.toNat - 48)) acc) := by
  induction ds generalizing acc with
  | nil => rfl
  | cons c rest ih =>
    have hc := hds c (List.mem_cons_self c rest)
    unfold parseDigitsCore
    rw [if_neg, if_pos hc]
    · rw [ih (fun x hx => hds x (List.mem_cons_of_mem c hx))]
      rfl
    · intro he
      subst he
      exact absurd hc (by decide)

theorem foldl_digits_natDecimalAux (fuel : Nat) : ∀ n acc : Nat, n ≤ fuel →
    (natDecimalAux fuel n).foldl (fun a c => a * 10 + (c.toNat - 48)) acc =
      acc * 10 ^ (natDecimalAux fuel n).length + n := by
  induction fuel with
  | zero =>
    intro n acc h
    interval_cases n
    simp [natDecimalAux]
  | succ f ih =>
    intro n acc h
    rw [natDecimalAux]
    split_ifs with h0
    · simp [h0]
    · have hle : n / 10 ≤ f := by omega
      rw [List.foldl_append, ih (n / 10) acc hle]
      simp only [List.foldl_cons, List.foldl_nil, List.length_append,
        List.length_cons, List.length_nil]
      rw [hexDigitChar_toNat_of_lt_ten (Nat.mod_lt _ (by omega))]
      have hpow : 10 ^ ((natDecimalAux f (n / 10)).length + 1) =
          10 ^ (natDecimalAux f (n / 10)).length * 10 := by ring
      rw [hpow]
      have hmul : acc * (10 ^ (natDecimalAux f (n / 10)).length * 10) =
          acc * 10 ^ (natDecimalAux f (n / 10)).length * 10 := by ring
      rw [hmul]
      omega

theorem parseDigits_natDecimal (n : Nat) :
    parseDigits (natDecimal n) = some n := by
  by_cases h0 : n = 0
  · subst h0
    decide
  · unfold natDecimal
    rw [if_neg h0]
    cases hnd : natDecimalCore n with
    | nil => exact absurd hnd (natDecimalCore_ne_nil (by omega))
    | cons c rest =>
      have hall : ∀ x ∈ c :: rest, isAsciiDigit x = true := by
        rw [← hnd]
        exact natDecimalCore_digits n
      have hcne : ¬(c = '_') := by
        intro he
        have := hall c (List.mem_cons_self c rest)
        subst he
        exact absurd this (by decide)
      simp only [parseDigits, if_neg hcne]
      rw [parseDigitsCore_digits hall 0]
      have := foldl_digits_natDecimalAux n n 0 (Nat.le_refl n)
      rw [show natDecimalAux n n = natDecimalCore n from rfl, hnd] at this
      simp only [zero_mul, zero_add] at this
      rw [this]

theorem intDecimal_ofNat (n : Nat) : intDecimal (n : Int) = natDecimal n := by
  unfold intDecimal
  rw [if_neg (by omega)]
  simp

/-- `str.split` of a separator-free string. -/
theorem pySplit_no_sep {w : List Char} (hw : ';' ∉ w) :
    pySplit ';' w = [w] := by
  induction w with
  | nil => rfl
  | cons c rest ih =>
    have hc : ¬(c = ';') := by
      intro he
      subst he
      exact hw (List.mem_cons_self ';' rest)
    have ht : ';' ∉ rest := fun hm => hw (List.mem_cons_of_mem c hm)
    unfold pySplit
    rw [if_neg hc, ih ht]

/-- `str.split` of `a + ";" + w` with `;`-free `a` and `w`. -/
theorem pySplit_append_sep {a w : List Char} (ha : ';' ∉ a) (hw : ';' ∉ w) :
    pySplit ';' (a ++ ';' :: w) = [a, w] := by
  induction a with
  | nil =>
    simp only [List.nil_append]
    unfold pySplit
    rw [if_pos rfl, pySplit_no_sep hw]
  | cons c t ih =>
    have hc : c ≠ ';' := fun he => ha (he ▸ List.mem_cons_self c t)
    have ht : ';' ∉ t := fun hm => ha (List.mem_cons_of_mem c hm)
    rw [List.cons_append]
    unfold pySplit
    rw [if_neg hc, ih ht]

/-- `takeWhile` over an all-satisfying block followed by a failing element. -/
theorem takeWhile_all_append {p : Char → Bool} {ds : List Char} {x : Char}
    {w : List Char} (hds : ∀ c ∈ ds, p c = true) (hx : p x = false) :
    (ds ++ x :: w).takeWhile p = ds := by
  induction ds with
  | nil => simp [List.takeWhile_cons, hx]
  | cons c t ih =>
    rw [List.cons_append, List.takeWhile_cons,
      hds c (List.mem_cons_self c t), ih (fun y hy => hds y (List.mem_cons_of_mem c hy))]
    simp

/-- `takeWhile (. != newline)` keeps a newline-free string whole. -/
theorem takeWhile_no_newline {w : List Char} (hwnl : '\n' ∉ w) :
    (w.takeWhile fun c => c ≠ '\n') = w := by
  induction w with
  | nil => rfl
  | cons c rest ih =>
    have hc : ¬(c = '\n') := by
      intro he
      subst he
      exact hwnl (List.mem_cons_self _ rest)
    have ih2 := ih (fun hm => hwnl (List.mem_cons_of_mem c hm))
    rw [List.takeWhile_cons]
    simp only [ne_eq, hc, not_false_eq_true, decide_True, if_true]
    rw [ih2]

/-- Evaluation of the `_REMOVE_SRID` match on a well-formed extended string:
the prefix `SRID=<digits>;` is stripped; the body is kept whole when it does
not begin with a space and has no newline. -/
theorem removeSridGroup3_eval {ds w : List Char} (hne : ds ≠ [])
    (hds : ∀ c ∈ ds, isAsciiDigit c = true) (hwsp : w.head? ≠ some ' ')
    (hwnl : '\n' ∉ w) :
    removeSridGroup3 ("SRID=".toList ++ ds ++ ';' :: w) = w := by
  have hstart : ("SRID=".toList ++ ds ++ ';' :: w).take 5 = "SRID=".toList := by
    rw [List.append_assoc]
    exact List.take_left' rfl
  have hdrop5 : ("SRID=".toList ++ ds ++ ';' :: w).drop 5 = ds ++ ';' :: w := by
    rw [List.append_assoc]
    exact List.drop_left' rfl
  have hmarker : sridMarkerDrop ("SRID=".toList ++ ds ++ ';' :: w) = some w := by
    unfold sridMarkerDrop
    rw [if_pos hstart]
    simp only [hdrop5]
    rw [takeWhile_all_append hds (by decide)]
    rw [if_neg (by simpa [List.isEmpty_iff] using hne)]
    rw [List.drop_left]
    show (if (';' : Char) = ';' then
      some (if w.head? = some ' ' then w.tail else w) else none) = some w
    rw [if_pos rfl, if_neg hwsp]
  unfold removeSridGroup3
  rw [hmarker]
  exact takeWhile_no_newline hwnl

/-- A successful `mkWKBFromHeader` stores exactly the passed payload. -/
theorem mkWKBFromHeader_ok_data {d : GeomData} {srid : Int}
    {ext : Option Bool} {header : List Nat} {e : WKBElement}
    (h : mkWKBFromHeader d srid ext header = .ok e) : e.data = d := by
  cases header with
  | nil => exact absurd h (by simp [mkWKBFromHeader])
  | cons b0 rest =>
    simp only [mkWKBFromHeader] at h
    split_ifs at h <;> cases h <;> rfl

/-- A successful `mkRasterFromHeader` is fully determined by its inputs. -/
theorem mkRasterFromHeader_ok {stored : List Char} {binData : List Nat}
    {e : RasterElement} (h : mkRasterFromHeader stored binData = .ok e) :
    e = ⟨stored,
      toSigned32 (unpackNat (binData.getD 0 0 == 1) ((binData.drop 53).take 4)),
      true⟩ := by
  simp only [mkRasterFromHeader] at h
  split_ifs at h <;> cases h <;> rfl

/-! ### Claim theorems -/

/-- C10: for every spatial element `a` and every foreign object `x` lacking
any of the attributes `extended`, `srid` or `desc`, `a == x` evaluates to
`False` (never raising, since the `AttributeError` is caught) and `a != x`
evaluates to `True`; equality against foreign objects is total. -/
theorem claim_C10 (a : SpatialElement) (x : ForeignObject)
    (hmiss : x.extendedAttr = none ∨ x.sridAttr = none ∨ x.descAttr = none) :
    pyEqForeign a x = false ∧ pyNeForeign a x = true := by
  have he : pyEqForeign a x = false := by
    unfold pyEqForeign
    rcases hmiss with h | h | h
    · rw [h]
    · cases hx : x.extendedAttr with
      | none => rfl
      | some xe =>
        rw [h]
        by_cases hp : pyValEq (.bool a.extended) xe = true <;> simp [hp]
    · cases hx : x.extendedAttr with
      | none => rfl
      | some xe =>
        by_cases hp : pyValEq (.bool a.extended) xe = true
        · cases hx2 : x.sridAttr with
          | none => simp [hp]
          | some xs =>
            rw [h]
            by_cases hp2 : pyValEq (.int a.srid) xs = true <;> simp [hp, hp2]
        · simp [hp]
  exact ⟨he, by simp [pyNeForeign, he]⟩

/-- Witness for C10 at a concrete element and a fully attribute-less
object. -/
theorem claim_C10_witness :
    pyEqForeign (.wkt ⟨"POINT(1 2)".toList, -1, false⟩)
        ⟨none, none, none⟩ = false ∧
      pyNeForeign (.wkt ⟨"POINT(1 2)".toList, -1, false⟩)
        ⟨none, none, none⟩ = true :=
  claim_C10 (.wkt ⟨"POINT(1 2)".toList, -1, false⟩) ⟨none, none, none⟩
    (Or.inl rfl)

/-- C5: constructing a `RasterElement` from a binary buffer of fewer than 61
bytes fails with a `MalformedInput`-kind error citing the 61 bytes required
and the number available, and a buffer (binary or hex) whose endianness byte
is neither 0 nor 1 likewise fails with a `MalformedInput`-kind error; no
unrelated decoding error is raised. -/
theorem claim_C5 :
    (∀ b : List Nat, b.length < 61 →
      mkRasterElement (.bin b) = .error (.rasterBinTooShort b.length 61) ∧
        (PyErr.rasterBinTooShort b.length 61).isMalformedInput = true) ∧
    (∀ b : List Nat, 61 ≤ b.length → b.getD 0 0 ≠ 0 → b.getD 0 0 ≠ 1 →
      mkRasterElement (.bin b) = .error (.rasterBadByteOrder (b.getD 0 0)) ∧
        (PyErr.rasterBadByteOrder (b.getD 0 0)).isMalformedInput = true) ∧
    (∀ (s : List Char) (hdr : List Nat), 122 ≤ s.length →
      unhexlify (s.take 122) = some hdr → hdr.getD 0 0 ≠ 0 → hdr.getD 0 0 ≠ 1 →
      mkRasterElement (.str s) = .error (.rasterBadByteOrder (hdr.getD 0 0))) := by
  refine ⟨fun b hb => ⟨?_, rfl⟩, fun b hb h0 h1 => ⟨?_, rfl⟩,
    fun s hdr hs hhex h0 h1 => ?_⟩
  · simp [mkRasterElement, hb]
  · simp only [mkRasterElement]
    rw [if_neg (by omega)]
    simp only [mkRasterFromHeader]
    rw [if_pos ⟨h0, h1⟩]
  · simp only [mkRasterElement]
    rw [if_neg (by omega), hhex]
    simp only [mkRasterFromHeader]
    rw [if_pos ⟨h0, h1⟩]

/-- Witness for C5: the 40-byte example from the spec, and a 61-byte buffer
with endianness byte 2. -/
theorem claim_C5_witness :
    mkRasterElement (.bin (List.replicate 40 0)) =
        .error (.rasterBinTooShort 40 61) ∧
      mkRasterElement (.bin (2 :: List.replicate 60 0)) =
        .error (.rasterBadByteOrder 2) := by
  constructor
  · have := (claim_C5.1 (List.replicate 40 0) (by simp)).1
    simpa using this
  · have := (claim_C5.2.1 (2 :: List.replicate 60 0) (by simp) (by simp)
      (by simp)).1
    simpa using this

/-- C7: constructing a `WKTElement` flagged as extended without an explicit
SRID parses the `SRID=<int>;` header; when the string does not split into
exactly two parts on `;`, or the SRID portion is not a valid integer,
construction fails with `ArgumentError`. -/
theorem claim_C7 :
    (∀ (s h1 h2 : List Char) (n : Int), pySplit ';' s = [h1, h2] →
      pyInt (h1.drop 5) = some n →
      mkWKTElement s (-1) (some true) = .ok ⟨s, n, true⟩) ∧
    (∀ s : List Char, (pySplit ';' s).length ≠ 2 →
      mkWKTElement s (-1) (some true) = .error .argumentError) ∧
    (∀ s h1 h2 : List Char, pySplit ';' s = [h1, h2] →
      pyInt (h1.drop 5) = none →
      mkWKTElement s (-1) (some true) = .error .argumentError) := by
  refine ⟨fun s h1 h2 n hsplit hint => ?_, fun s hlen => ?_,
    fun s h1 h2 hsplit hint => ?_⟩
  · unfold mkWKTElement
    rw [if_pos ⟨rfl, rfl⟩, hsplit]
    simp only [hint]
  · unfold mkWKTElement
    rw [if_pos ⟨rfl, rfl⟩]
    rcases hsp : pySplit ';' s with _ | ⟨a, _ | ⟨b, _ | ⟨c, rest⟩⟩⟩
    · rfl
    · rfl
    · rw [hsp] at hlen
      simp at hlen
    · rfl
  · unfold mkWKTElement
    rw [if_pos ⟨rfl, rfl⟩, hsplit]
    simp only [hint]

/-- Witness for C7 at concrete strings: a valid EWKT header, a headerless
string, and a non-numeric SRID. -/
theorem claim_C7_witness :
    mkWKTElement "SRID=4326;POINT(5 45)".toList (-1) (some true) =
        .ok ⟨"SRID=4326;POINT(5 45)".toList, 4326, true⟩ ∧
      mkWKTElement "POINT(5 45)".toList (-1) (some true) =
        .error .argumentError ∧
      mkWKTElement "SRID=abc;POINT(5 45)".toList (-1) (some true) =
        .error .argumentError := by
  refine ⟨?_, ?_, ?_⟩
  · exact claim_C7.1 "SRID=4326;POINT(5 45)".toList "SRID=4326".toList
      "POINT(5 45)".toList 4326 (by decide) (by decide)
  · exact claim_C7.2.1 "POINT(5 45)".toList (by decide)
  · exact claim_C7.2.2 "SRID=abc;POINT(5 45)".toList "SRID=abc".toList
      "POINT(5 45)".toList (by decide) (by decide)


/-- C4: two spatial elements are equal iff their `extended` flag, `srid` and
canonical description agree; and a `WKBElement` built from raw bytes equals
one built (with the same default arguments) from an equivalent hex string in
any letter case, since the canonical description lowercases the hex text. -/
theorem claim_C4 :
    (∀ a b : SpatialElement, pyEqSpatial a b = true ↔
      (a.extended = b.extended ∧ a.srid = b.srid ∧ a.desc = b.desc)) ∧
    (∀ (h : List Char) (bs : List Nat) (e1 e2 : WKBElement),
      unhexlify h = some bs →
      mkWKBElement (.bin bs) (-1) none = .ok e1 →
      mkWKBElement (.str h) (-1) none = .ok e2 →
      pyEqSpatial (.wkb e1) (.wkb e2) = true) := by
  constructor
  · intro a b
    simp only [pyEqSpatial, Bool.and_eq_true, beq_iff_eq]
    tauto
  · intro h bs e1 e2 hh h1 h2
    have htake : unhexlify (h.take 18) = some (bs.take 9) := by
      have := unhexlify_take hh 9
      norm_num at this
      exact this
    have hbin : mkWKBElement (.bin bs) (-1) none =
        mkWKBFromHeader (.bin bs) (-1) none (bs.take 9) := by
      simp [mkWKBElement]
    have hstr : mkWKBElement (.str h) (-1) none =
        mkWKBFromHeader (.str h) (-1) none (bs.take 9) := by
      simp [mkWKBElement, htake]
    rw [hbin] at h1
    rw [hstr, mkWKBFromHeader_data (.bin bs) (.str h) (-1) none (bs.take 9),
      h1] at h2
    simp only [Except.map] at h2
    injection h2 with he2
    have hdata1 : e1.data = .bin bs := mkWKBFromHeader_ok_data h1
    subst he2
    simp only [pyEqSpatial, SpatialElement.extended, SpatialElement.srid,
      SpatialElement.desc, WKBElement.desc, hdata1]
    simp [lowerStr_unhexlify hh]

/-- Witness for C4 at a concrete extended point geometry given as bytes and
as an equivalent upper-case hex string. -/
theorem claim_C4_witness :
    pyEqSpatial
        (.wkt ⟨"P".toList, 0, false⟩) (.wkt ⟨"P".toList, 0, false⟩) = true ∧
      ∀ e1 e2 : WKBElement,
        mkWKBElement
          (.bin ([1, 1, 0, 0, 32, 230, 16, 0, 0] ++ List.replicate 16 0))
          (-1) none = .ok e1 →
        mkWKBElement
          (.str "0101000020E610000000000000000000000000000000000000".toList)
          (-1) none = .ok e2 →
        pyEqSpatial (.wkb e1) (.wkb e2) = true := by
  constructor
  · exact (claim_C4.1 _ _).mpr ⟨rfl, rfl, rfl⟩
  · intro e1 e2 h1 h2
    exact claim_C4.2
      "0101000020E610000000000000000000000000000000000000".toList
      ([1, 1, 0, 0, 32, 230, 16, 0, 0] ++ List.replicate 16 0) e1 e2
      (by decide) h1 h2

/-- C3 counterexample: a `RasterElement` built from a valid upper-case hex
string keeps the original string as `data`, which is not lowercase text, so
`data` is not always "a lowercase hexadecimal text string". -/
theorem claim_C3_cx :
    mkRasterElement (.str c3UpperHex) = .ok ⟨c3UpperHex, 4326, true⟩ ∧
      lowerStr c3UpperHex ≠ c3UpperHex := by
  constructor
  · decide
  · decide

/-- C3 (amended): every successfully constructed `RasterElement` has
`extended = True` and `srid` read as the signed 32-bit integer at byte
offsets 53..56 under the endianness of byte 0; its `data` is lowercase hex
text for bytes/memoryview input, while hex-string input is stored verbatim
(preserving the caller's letter case). -/
theorem claim_C3 :
    (∀ (b : List Nat) (e : RasterElement), mkRasterElement (.bin b) = .ok e →
      e.extended = true ∧
      e.srid = toSigned32 (unpackNat (b.getD 0 0 == 1) ((b.drop 53).take 4)) ∧
      e.data = hexlify b ∧ lowerStr e.data = e.data) ∧
    (∀ (s : List Char) (e : RasterElement), mkRasterElement (.str s) = .ok e →
      e.extended = true ∧ e.data = s ∧
      ∃ hdr, unhexlify (s.take 122) = some hdr ∧
        e.srid = toSigned32
          (unpackNat (hdr.getD 0 0 == 1) ((hdr.drop 53).take 4))) := by
  constructor
  · intro b e h
    simp only [mkRasterElement] at h
    split_ifs at h
    have he := mkRasterFromHeader_ok h
    subst he
    exact ⟨rfl, rfl, rfl, lowerStr_hexlify b⟩
  · intro s e h
    simp only [mkRasterElement] at h
    split_ifs at h
    cases hu : unhexlify (s.take 122) with
    | none => rw [hu] at h; cases h
    | some hdr =>
      rw [hu] at h
      have he := mkRasterFromHeader_ok h
      subst he
      exact ⟨rfl, rfl, hdr, rfl, rfl⟩

/-- Witness for C3 at a concrete 61-byte little-endian raster with SRID
4326. -/
theorem claim_C3_witness :
    ∀ e : RasterElement,
      mkRasterElement
        (.bin ([1, 0, 0, 1, 0] ++ List.replicate 48 0 ++ [230, 16, 0, 0] ++
          [1, 0, 1, 0])) = .ok e →
      e.extended = true ∧ e.srid = 4326 := by
  intro e h
  have := (claim_C3.1 _ e h)
  refine ⟨this.1, ?_⟩
  rw [this.2.1]
  decide

/-- C9 counterexample: a `WKBElement` constructed from an invalid hex string
with an explicit SRID and `extended=False` does not raise; the constructor
skips validation entirely in that case. -/
theorem claim_C9_cx :
    mkWKBElement (.str ['z', 'z']) 4326 (some false) =
        .ok ⟨.str ['z', 'z'], 4326, false⟩ ∧
      unhexlify ['z', 'z'] = none := by
  constructor
  · decide
  · decide

/-- C9 (amended): construction from invalid bytes/hex fails at construction
time whenever the constructor validates its input: always for
`RasterElement` (minimum length, hex decode of the first 122 characters,
endianness byte), and for `WKBElement` exactly when the header is parsed
(`srid == -1` or `extended` is `None`/`True`; then the hex prefix must
decode and the payload must be non-empty).  A `WKBElement` built with an
explicit `srid != -1` and `extended=False` performs no validation at all, and
description access never fails for any constructed instance. -/
theorem claim_C9 :
    (∀ (b : List Nat) (e : RasterElement), mkRasterElement (.bin b) = .ok e →
      61 ≤ b.length ∧ (b.getD 0 0 = 0 ∨ b.getD 0 0 = 1)) ∧
    (∀ (s : List Char) (e : RasterElement), mkRasterElement (.str s) = .ok e →
      122 ≤ s.length ∧ ∃ hdr, unhexlify (s.take 122) = some hdr ∧
        (hdr.getD 0 0 = 0 ∨ hdr.getD 0 0 = 1)) ∧
    (∀ (s : List Char) (e : WKBElement),
      mkWKBElement (.str s) (-1) none = .ok e →
      ∃ hdr, unhexlify (s.take 18) = some hdr ∧ hdr ≠ []) ∧
    (∀ (b : List Nat) (e : WKBElement),
      mkWKBElement (.bin b) (-1) none = .ok e → b ≠ []) ∧
    (∀ (s : List Char) (srid : Int), srid ≠ -1 →
      mkWKBElement (.str s) srid (some false) = .ok ⟨.str s, srid, false⟩) := by
  refine ⟨fun b e h => ?_, fun s e h => ?_, fun s e h => ?_, fun b e h => ?_,
    fun s srid hs => ?_⟩
  · simp only [mkRasterElement] at h
    split_ifs at h with hlen
    simp only [mkRasterFromHeader] at h
    split_ifs at h with hbo hsb
    cases h
    exact ⟨by omega, by omega⟩
  · simp only [mkRasterElement] at h
    split_ifs at h with hlen
    cases hu : unhexlify (s.take 122) with
    | none => rw [hu] at h; cases h
    | some hdr =>
      rw [hu] at h
      simp only [mkRasterFromHeader] at h
      split_ifs at h with hbo hsb
      cases h
      refine ⟨by omega, hdr, rfl, by omega⟩
  · simp only [mkWKBElement] at h
    cases hu : unhexlify (s.take 18) with
    | none => rw [hu] at h; cases h
    | some hdr =>
      rw [hu] at h
      refine ⟨hdr, rfl, ?_⟩
      intro hnil
      subst hnil
      cases h
  · intro hnil
    subst hnil
    simp only [mkWKBElement, mkWKBFromHeader, List.take_nil] at h
    cases h
  · simp only [mkWKBElement]
    rw [if_neg]
    · simp
    · simp [hs]

/-- Witness for C9: a valid raster, a valid WKB hex string, valid WKB bytes,
and the validation-skipping constructor call, all at concrete inputs. -/
theorem claim_C9_witness :
    (∀ e : RasterElement,
      mkRasterElement
        (.bin ([1, 0, 0, 1, 0] ++ List.replicate 48 0 ++ [230, 16, 0, 0] ++
          [1, 0, 1, 0])) = .ok e →
      61 ≤ ([1, 0, 0, 1, 0] ++ List.replicate 48 0 ++ [230, 16, 0, 0] ++
        [1, 0, 1, 0] : List Nat).length) ∧
      mkWKBElement (.str "00".toList) 5 (some false) =
        .ok ⟨.str "00".toList, 5, false⟩ := by
  constructor
  · intro e h
    exact (claim_C9.1 _ e h).1
  · exact claim_C9.2.2.2.2 "00".toList 5 (by decide)


/-- C6 counterexample: the EWKT string `SRID=4326; POINT(1 2)` (whose WKT
body ` POINT(1 2)` begins with a space, which the `_REMOVE_SRID` regex
consumes) does not round-trip exactly: extended → plain → extended yields
body `POINT(1 2)` without the leading space. -/
theorem claim_C6_cx :
    mkWKTElement "SRID=4326; POINT(1 2)".toList (-1) none =
        .ok ⟨"SRID=4326; POINT(1 2)".toList, 4326, true⟩ ∧
      WKTElement.asWkt ⟨"SRID=4326; POINT(1 2)".toList, 4326, true⟩ =
        .ok ⟨"POINT(1 2)".toList, 4326, false⟩ ∧
      WKTElement.asEwkt ⟨"POINT(1 2)".toList, 4326, false⟩ =
        .ok ⟨"SRID=4326;POINT(1 2)".toList, 4326, true⟩ ∧
      "SRID=4326;POINT(1 2)".toList ≠
        "SRID=4326;".toList ++ " POINT(1 2)".toList := by
  exact ⟨by decide, by decide, by decide, by decide⟩

/-- C6 (amended): for every valid EWKT `SRID=<n>;<wkt>` with `n` a
non-negative integer whose WKT body contains no `;` or newline and does not
begin with a space, construction without an explicit SRID reads back
`srid = n`, and the round trip extended → plain (`as_wkt`) → extended
(`as_ewkt`) with the same `n` yields an EWKT value whose WKT body is exactly
the original `<wkt>` (a body beginning with a space loses that one space to
the `; ?` regex). -/
theorem claim_C6 (ds w : List Char) (n : Nat)
    (hne : ds ≠ []) (hds : ∀ c ∈ ds, isAsciiDigit c = true)
    (hp : parseDigits ds = some n)
    (hwsemi : ';' ∉ w) (hwnl : '\n' ∉ w) (hwsp : w.head? ≠ some ' ') :
    mkWKTElement ("SRID=".toList ++ ds ++ ';' :: w) (-1) none =
        .ok ⟨"SRID=".toList ++ ds ++ ';' :: w, (n : Int), true⟩ ∧
      WKTElement.asWkt ⟨"SRID=".toList ++ ds ++ ';' :: w, (n : Int), true⟩ =
        .ok ⟨w, (n : Int), false⟩ ∧
      WKTElement.asEwkt ⟨w, (n : Int), false⟩ =
        .ok ⟨"SRID=".toList ++ natDecimal n ++ ';' :: w, (n : Int), true⟩ := by
  have hnosemiS : ∀ c ∈ "SRID=".toList, ¬(c = ';') := by decide
  have hnosemiA : ';' ∉ ("SRID=".toList ++ ds) := by
    intro hmem
    rcases List.mem_append.mp hmem with hm | hm
    · exact hnosemiS ';' hm rfl
    · exact absurd (hds ';' hm) (by decide)
  have hsplit : pySplit ';' ("SRID=".toList ++ ds ++ ';' :: w) =
      ["SRID=".toList ++ ds, w] := pySplit_append_sep hnosemiA hwsemi
  have hstart : ("SRID=".toList ++ ds ++ ';' :: w).take 5 = "SRID=".toList := by
    rw [List.append_assoc]
    exact List.take_left' rfl
  have hdropA : ("SRID=".toList ++ ds).drop 5 = ds := List.drop_left' rfl
  have hpy : pyInt (("SRID=".toList ++ ds).drop 5) = some (n : Int) := by
    rw [hdropA]
    exact pyInt_digits hne hds hp
  refine ⟨?_, ?_, ?_⟩
  · simp only [mkWKTElement, hstart, hsplit, hpy]
    simp
  · unfold WKTElement.asWkt
    rw [if_pos rfl]
    rw [removeSridGroup3_eval hne hds hwsp hwnl]
    simp only [mkWKTElement]
    rw [if_neg (by simp)]
  · unfold WKTElement.asEwkt
    rw [if_pos ⟨by simp, by show ¬((n : Int) = -1); omega⟩, intDecimal_ofNat]
    have hnosemiB : ';' ∉ ("SRID=".toList ++ natDecimal n) := by
      intro hmem
      rcases List.mem_append.mp hmem with hm | hm
      · exact hnosemiS ';' hm rfl
      · exact absurd (natDecimal_digits n ';' hm) (by decide)
    have hsplit2 :
        pySplit ';' ("SRID=".toList ++ natDecimal n ++ [';'] ++ w) =
          ["SRID=".toList ++ natDecimal n, w] := by
      rw [List.append_assoc, List.singleton_append]
      exact pySplit_append_sep hnosemiB hwsemi
    have hdropB : ("SRID=".toList ++ natDecimal n).drop 5 = natDecimal n :=
      List.drop_left' rfl
    have hpy2 : pyInt (("SRID=".toList ++ natDecimal n).drop 5) =
        some (n : Int) := by
      rw [hdropB]
      exact pyInt_digits (natDecimal_ne_nil n) (natDecimal_digits n)
        (parseDigits_natDecimal n)
    simp only [mkWKTElement, hsplit2, hpy2]
    simp [List.append_assoc]

/-- Witness for C6 at `SRID=4326;POINT(5 45)`. -/
theorem claim_C6_witness :
    mkWKTElement ("SRID=".toList ++ "4326".toList ++ ';' :: "POINT(5 45)".toList)
        (-1) none =
      .ok ⟨"SRID=".toList ++ "4326".toList ++ ';' :: "POINT(5 45)".toList,
        (4326 : Int), true⟩ := by
  exact (claim_C6 "4326".toList "POINT(5 45)".toList 4326 (by decide)
    (by decide) (by decide) (by decide) (by decide) (by decide)).1


/-- C2: for every raster payload whose header declares `nbands = 1`, width
`W ≥ 1`, height `H ≥ 1` and a supported pixel type `T`, and whose band
payload is complete, `wkbImage` returns exactly one band of `H` rows with
`W` samples each; the bytes consumed are exactly `61 + 1 + W*H*sampleSize(T)`
(the result is unchanged when the payload is truncated to exactly that many
bytes, and by C8 fewer bytes fail). -/
theorem claim_C2 (raw : List Nat) (W H : Nat) (T : Int)
    (he : raw.getD 0 0 = 0 ∨ raw.getD 0 0 = 1)
    (hn : unpackNat (fmtLittle (toSigned8 (raw.getD 0 0)))
      ((raw.drop 3).take 2) = 1)
    (hWdef : unpackNat (fmtLittle (toSigned8 (raw.getD 0 0)))
      ((raw.drop 57).take 2) = W)
    (hHdef : unpackNat (fmtLittle (toSigned8 (raw.getD 0 0)))
      ((raw.drop 59).take 2) = H)
    (hW : 1 ≤ W) (hH : 1 ≤ H)
    (hTdef : toSigned8 (raw.getD 61 0) - 64 = T)
    (hTs : pixSupported T = true)
    (hlen : 62 + W * H * psizeOf T.toNat ≤ raw.length) :
    ∃ band, wkbImage (.bin raw) = .ok [band] ∧ band.length = H ∧
      (∀ row ∈ band, row.length = W) ∧
      wkbImage (.bin (raw.take (62 + W * H * psizeOf T.toNat))) =
        wkbImage (.bin raw) := by
  have hps := psizeOf_pos hTs
  have hwhp : 1 ≤ W * H * psizeOf T.toNat :=
    Nat.mul_le_mul (Nat.mul_le_mul hW hH) hps
  have hmain := wkbImage_one_band he hn hWdef hHdef hW hH hTdef hTs hlen
  refine ⟨_, hmain, by simp, ?_, ?_⟩
  · intro row hrow
    simp only [List.mem_map] at hrow
    obtain ⟨i, _, hrow⟩ := hrow
    rw [← hrow]
    simp
  · have hlenN : (raw.take (62 + W * H * psizeOf T.toNat)).length =
        62 + W * H * psizeOf T.toNat := by
      rw [List.length_take]
      omega
    have hg0 : (raw.take (62 + W * H * psizeOf T.toNat)).getD 0 0 =
        raw.getD 0 0 := getD_take (by omega)
    have hg61 : (raw.take (62 + W * H * psizeOf T.toNat)).getD 61 0 =
        raw.getD 61 0 := getD_take (by omega)
    have he2 : (raw.take (62 + W * H * psizeOf T.toNat)).getD 0 0 = 0 ∨
        (raw.take (62 + W * H * psizeOf T.toNat)).getD 0 0 = 1 := by
      rw [hg0]
      exact he
    have hn2 : unpackNat
        (fmtLittle (toSigned8 ((raw.take (62 + W * H * psizeOf T.toNat)).getD 0 0)))
        (((raw.take (62 + W * H * psizeOf T.toNat)).drop 3).take 2) = 1 := by
      rw [hg0, drop_take_take (by omega)]
      exact hn
    have hW2 : unpackNat
        (fmtLittle (toSigned8 ((raw.take (62 + W * H * psizeOf T.toNat)).getD 0 0)))
        (((raw.take (62 + W * H * psizeOf T.toNat)).drop 57).take 2) = W := by
      rw [hg0, drop_take_take (by omega)]
      exact hWdef
    have hH2 : unpackNat
        (fmtLittle (toSigned8 ((raw.take (62 + W * H * psizeOf T.toNat)).getD 0 0)))
        (((raw.take (62 + W * H * psizeOf T.toNat)).drop 59).take 2) = H := by
      rw [hg0, drop_take_take (by omega)]
      exact hHdef
    have hT2 : toSigned8 ((raw.take (62 + W * H * psizeOf T.toNat)).getD 61 0) -
        64 = T := by
      rw [hg61]
      exact hTdef
    have hlen2 : 62 + W * H * psizeOf T.toNat ≤
        (raw.take (62 + W * H * psizeOf T.toNat)).length := by
      rw [hlenN]
    have hmain2 := wkbImage_one_band he2 hn2 hW2 hH2 hW hH hT2 hTs hlen2
    rw [hmain, hmain2, hg0, drop_take_take (by omega)]

/-- Witness for C2 at the concrete raster `c2Raster` (width 1, height 1,
pixel type 4 = 8BUI, 63 bytes). -/
theorem claim_C2_witness :
    ∃ band, wkbImage (.bin c2Raster) = .ok [band] ∧ band.length = 1 ∧
      (∀ row ∈ band, row.length = 1) ∧
      wkbImage (.bin (c2Raster.take
        (62 + 1 * 1 * psizeOf (Int.toNat 4)))) =
        wkbImage (.bin c2Raster) :=
  claim_C2 c2Raster 1 1 4 (by decide) (by decide) (by decide) (by decide)
    (by decide) (by decide) (by decide) (by decide) (by decide)

/-- C8: during band decoding, a derived pixel type of 9 — or any code outside
the supported set — fails with an `UnsupportedPixelType`-kind error; and when
the remaining bytes cannot hold one metadata byte plus
`width*height*sampleSize` sample bytes (for a supported type), decoding fails
with a `MalformedInput`-kind error rather than returning a truncated band. -/
theorem claim_C8 :
    (pixSupported 9 = false) ∧
    (∀ (raw : List Nat) (e : Int) (width height offset k : Nat),
      offset + 1 < raw.length →
      pixSupported (toSigned8 (raw.getD offset 0) - 64) = false →
      readBands raw e width height offset (k + 1) =
          .error (.badPixType (toSigned8 (raw.getD offset 0) - 64)) ∧
        (PyErr.badPixType
          (toSigned8 (raw.getD offset 0) - 64)).isUnsupportedPixelType = true) ∧
    (∀ (raw : List Nat) (e : Int) (width height offset k : Nat),
      pixSupported (toSigned8 (raw.getD offset 0) - 64) = true →
      raw.length < offset + 1 + width * height *
        psizeOf (toSigned8 (raw.getD offset 0) - 64).toNat →
      ∃ er, readBands raw e width height offset (k + 1) = .error er ∧
        er.isMalformedInput = true) := by
  refine ⟨by decide, ?_, ?_⟩
  · intro raw e width height offset k hoff hbad
    refine ⟨?_, rfl⟩
    rw [readBands]
    rw [if_neg (by omega)]
    rw [if_pos (by rw [hbad]; simp)]
  · intro raw e width height offset k hgood hshort
    by_cases hoff : offset + 1 ≥ raw.length
    · refine ⟨.bandHeaderShort, ?_, rfl⟩
      rw [readBands]
      rw [if_pos hoff]
    · refine ⟨.bandTooShort raw.length (offset + 1 + width * height *
        psizeOf (toSigned8 (raw.getD offset 0) - 64).toNat), ?_, rfl⟩
      rw [readBands]
      rw [if_neg hoff]
      rw [if_neg (by rw [hgood]; simp)]
      have hrb : readBand raw offset (toSigned8 (raw.getD offset 0) - 64)
          height width e = .error (.bandTooShort raw.length (offset + 1 +
            width * height *
            psizeOf (toSigned8 (raw.getD offset 0) - 64).toNat)) := by
        unfold readBand
        rw [if_neg (by rw [hgood]; simp)]
        rw [if_pos hshort]
      rw [hrb]

/-- Witness for C8: the raster `c8Raster` carries band type byte 73
(pixel type 9) and fails with the unsupported-pixel-type error; the raster
`c8ShortRaster` ends right after a valid metadata byte and fails with a
`MalformedInput`-kind error. -/
theorem claim_C8_witness :
    (readBands c8Raster 1 1 1 61 1 = .error (.badPixType 9) ∧
      (PyErr.badPixType 9).isUnsupportedPixelType = true) ∧
    (∃ er, readBands c8ShortRaster 1 1 1 61 1 = .error er ∧
      er.isMalformedInput = true) := by
  constructor
  · have := claim_C8.2.1 c8Raster 1 1 1 61 0 (by decide) (by decide)
    simpa using this
  · have := claim_C8.2.2 c8ShortRaster 1 1 1 61 0 (by decide) (by decide)
    simpa using this


/-! ### Evaluation lemmas for the WKB constructor and conversions (C1) -/

theorem take9_cons (b0 : Nat) (rest : List Nat) :
    (b0 :: rest).take 9 = b0 :: rest.take 8 := rfl

/-- `mkWKBFromHeader` with `extended=True` and an explicit SRID keeps both. -/
theorem mkWKBFromHeader_exttrue {d : GeomData} {srid : Int} {b0 : Nat}
    {rest : List Nat} (h : srid ≠ -1) :
    mkWKBFromHeader d srid (some true) (b0 :: rest) = .ok ⟨d, srid, true⟩ := by
  simp only [mkWKBFromHeader]
  rw [if_neg (by simp [h])]

/-- `mkWKBFromHeader` with `extended=None` on a type word with clear SRID bit
resolves `extended` to `False` and keeps the given SRID. -/
theorem mkWKBFromHeader_none_clear {d : GeomData} {srid : Int} {b0 : Nat}
    {rest : List Nat} (hr4 : (rest.take 4).length = 4)
    (hbit : unpackNat (b0 != 0) (rest.take 4) &&& 536870912 = 0) :
    mkWKBFromHeader d srid none (b0 :: rest) = .ok ⟨d, srid, false⟩ := by
  by_cases ht : unpackNat (b0 != 0) (rest.take 4) = 0
  · simp [mkWKBFromHeader, hr4, ht]
  · simp [mkWKBFromHeader, hr4, ht, hbit]

/-- `mkWKBFromHeader` with `extended=None`, an explicit SRID, and a set SRID
bit resolves `extended` to `True` and keeps the given SRID. -/
theorem mkWKBFromHeader_none_set {d : GeomData} {srid : Int} {b0 : Nat}
    {rest : List Nat} (hr4 : (rest.take 4).length = 4)
    (hbit : unpackNat (b0 != 0) (rest.take 4) &&& 536870912 ≠ 0)
    (hsrid : srid ≠ -1) :
    mkWKBFromHeader d srid none (b0 :: rest) = .ok ⟨d, srid, true⟩ := by
  have ht : unpackNat (b0 != 0) (rest.take 4) ≠ 0 := by
    intro h0
    rw [h0] at hbit
    exact hbit rfl
  simp [mkWKBFromHeader, hr4, ht, hbit, hsrid]

/-- `mkWKBFromHeader` with `extended=None` and the default SRID reads the
embedded SRID when the SRID bit is set. -/
theorem mkWKBFromHeader_none_set_read {d : GeomData} {b0 : Nat}
    {rest : List Nat} (hr4 : (rest.take 4).length = 4)
    (hr8 : (rest.drop 4).length = 4)
    (hbit : unpackNat (b0 != 0) (rest.take 4) &&& 536870912 ≠ 0) :
    mkWKBFromHeader d (-1) none (b0 :: rest) =
      .ok ⟨d, Int.ofNat (unpackNat (b0 != 0) (rest.drop 4)), true⟩ := by
  have ht : unpackNat (b0 != 0) (rest.take 4) ≠ 0 := by
    intro h0
    rw [h0] at hbit
    exact hbit rfl
  simp [mkWKBFromHeader, hr4, hr8, ht, hbit]

/-- Skipping construction: explicit SRID with `extended=False`. -/
theorem mkWKB_skipped {d : GeomData} {srid : Int} (h : srid ≠ -1) :
    mkWKBElement d srid (some false) = .ok ⟨d, srid, false⟩ := by
  unfold mkWKBElement
  rw [if_neg (by simp [h])]
  rfl

/-- Evaluation of `as_ewkb` on a non-extended bytes element: sets the SRID
bit and splices in the packed SRID, then re-runs the constructor. -/
theorem asEwkb_bin_eval {b0 : Nat} {rest : List Nat} {s : Int}
    (hs0 : 0 ≤ s) (hs32 : s < 4294967296) (hsm1 : s ≠ -1)
    (hr4 : (rest.take 4).length = 4) :
    WKBElement.asEwkb ⟨.bin (b0 :: rest), s, false⟩ =
      mkWKBElement (.bin (b0 :: (natToBytes (b0 != 0) 4
          ((unpackNat (b0 != 0) (rest.take 4)) ||| 536870912) ++
        natToBytes (b0 != 0) 4 s.toNat ++ rest.drop 4))) s (some true) := by
  simp only [WKBElement.asEwkb, wkbByteOrderAndType, intToBytes4]
  rw [if_pos ⟨by simp, hsm1⟩]
  rw [if_pos ⟨hs0, hs32⟩]
  rw [hr4]
  simp [List.append_assoc]

/-- Evaluation of `as_wkb` on an extended bytes element: clears the SRID bit
and drops the 4 embedded SRID bytes, then re-runs the constructor. -/
theorem asWkb_bin_eval {b0 : Nat} {tail : List Nat} {s : Int}
    (hr4 : (tail.take 4).length = 4) :
    WKBElement.asWkb ⟨.bin (b0 :: tail), s, true⟩ =
      mkWKBElement (.bin (b0 :: (natToBytes (b0 != 0) 4
          ((unpackNat (b0 != 0) (tail.take 4)) &&& 3758096383) ++
        tail.drop 8))) s (some false) := by
  simp only [WKBElement.asWkb, wkbByteOrderAndType, if_true]
  rw [hr4]
  simp [List.append_assoc]

/-- The constructor parses the 9-byte header prefix whenever
`srid = -1 or extended in (None, True)` (bytes payload). -/
theorem mkWKB_bin_parse {b0 : Nat} {rest : List Nat} {srid : Int}
    {extended : Option Bool}
    (hcond : srid = -1 ∨ extended = none ∨ extended = some true) :
    mkWKBElement (.bin (b0 :: rest)) srid extended =
      mkWKBFromHeader (.bin (b0 :: rest)) srid extended (b0 :: rest.take 8) := by
  unfold mkWKBElement
  rw [if_pos hcond]
  rfl

/-- Round trip, direction 1, bytes payload: inject then strip restores the
original buffer exactly. -/
theorem c1_dir1_bin {b0 : Nat} {rest : List Nat} {s : Int}
    (hwf : ∀ x ∈ b0 :: rest, x < 256) (hr4 : 4 ≤ rest.length)
    (hs0 : 0 ≤ s) (hs32 : s < 4294967296)
    (hbit : unpackNat (b0 != 0) (rest.take 4) &&& 536870912 = 0) :
    ∃ d2 : GeomData,
      mkWKBElement (.bin (b0 :: rest)) s none =
        .ok ⟨.bin (b0 :: rest), s, false⟩ ∧
      WKBElement.asEwkb ⟨.bin (b0 :: rest), s, false⟩ = .ok ⟨d2, s, true⟩ ∧
      WKBElement.asWkb ⟨d2, s, true⟩ = .ok ⟨.bin (b0 :: rest), s, false⟩ := by
  have hsm1 : s ≠ -1 := by omega
  have hl4 : (rest.take 4).length = 4 := by
    simp [List.length_take]
    omega
  have hwfr : ∀ x ∈ rest, x < 256 := fun x hx =>
    hwf x (List.mem_cons_of_mem _ hx)
  have hwf4 : ∀ x ∈ rest.take 4, x < 256 := fun x hx =>
    hwfr x (List.mem_of_mem_take hx)
  have hT32 : unpackNat (b0 != 0) (rest.take 4) < 4294967296 :=
    unpackNat_lt _ hl4 hwf4
  have htt : (rest.take 8).take 4 = rest.take 4 := by
    rw [List.take_take]
    norm_num
  have hlenP : (natToBytes (b0 != 0) 4
      (unpackNat (b0 != 0) (rest.take 4) ||| 536870912)).length = 4 :=
    length_natToBytes _ _ _
  have hlenS : (natToBytes (b0 != 0) 4 s.toNat).length = 4 :=
    length_natToBytes _ _ _
  refine ⟨.bin (b0 :: (natToBytes (b0 != 0) 4
      (unpackNat (b0 != 0) (rest.take 4) ||| 536870912) ++
    natToBytes (b0 != 0) 4 s.toNat ++ rest.drop 4)), ?_, ?_, ?_⟩
  · rw [mkWKB_bin_parse (Or.inr (Or.inl rfl))]
    exact mkWKBFromHeader_none_clear (by rw [htt]; exact hl4)
      (by rw [htt]; exact hbit)
  · rw [asEwkb_bin_eval hs0 hs32 hsm1 hl4]
    rw [mkWKB_bin_parse (Or.inr (Or.inr rfl))]
    exact mkWKBFromHeader_exttrue hsm1
  · have htail4 : (natToBytes (b0 != 0) 4
        (unpackNat (b0 != 0) (rest.take 4) ||| 536870912) ++
        natToBytes (b0 != 0) 4 s.toNat ++ rest.drop 4).take 4 =
        natToBytes (b0 != 0) 4
          (unpackNat (b0 != 0) (rest.take 4) ||| 536870912) := by
      rw [List.append_assoc]
      exact List.take_left' hlenP
    have htail8 : (natToBytes (b0 != 0) 4
        (unpackNat (b0 != 0) (rest.take 4) ||| 536870912) ++
        natToBytes (b0 != 0) 4 s.toNat ++ rest.drop 4).drop 8 = rest.drop 4 := by
      have hps : (natToBytes (b0 != 0) 4
          (unpackNat (b0 != 0) (rest.take 4) ||| 536870912) ++
          natToBytes (b0 != 0) 4 s.toNat).length = 8 := by
        rw [List.length_append, hlenP, hlenS]
      exact List.drop_left' hps
    rw [asWkb_bin_eval (by rw [htail4]; exact hlenP)]
    rw [htail4, htail8]
    rw [unpackNat_natToBytes _ (or_bit29_lt hT32)]
    rw [clear_after_set_bit29 hT32 (srid_bit_clear_of_and_eq_zero hbit)]
    rw [natToBytes_unpackNat _ hl4 hwf4]
    rw [List.take_append_drop]
    exact mkWKB_skipped hsm1

/-- Round trip, direction 2, bytes payload: a buffer with embedded SRID,
stripped and re-injected, is restored exactly (with the same SRID the
constructor read from it). -/
theorem c1_dir2_bin {b0 : Nat} {rest : List Nat}
    (hwf : ∀ x ∈ b0 :: rest, x < 256) (hr8 : 8 ≤ rest.length)
    (hbit : unpackNat (b0 != 0) (rest.take 4) &&& 536870912 ≠ 0) :
    ∃ (s : Int) (d2 : GeomData),
      s = Int.ofNat (unpackNat (b0 != 0) ((rest.drop 4).take 4)) ∧
      mkWKBElement (.bin (b0 :: rest)) (-1) none =
        .ok ⟨.bin (b0 :: rest), s, true⟩ ∧
      WKBElement.asWkb ⟨.bin (b0 :: rest), s, true⟩ = .ok ⟨d2, s, false⟩ ∧
      WKBElement.asEwkb ⟨d2, s, false⟩ = .ok ⟨.bin (b0 :: rest), s, true⟩ := by
  have hwfr : ∀ x ∈ rest, x < 256 := fun x hx =>
    hwf x (List.mem_cons_of_mem _ hx)
  have hl4 : (rest.take 4).length = 4 := by
    simp [List.length_take]
    omega
  have hwf4 : ∀ x ∈ rest.take 4, x < 256 := fun x hx =>
    hwfr x (List.mem_of_mem_take hx)
  have hT32 : unpackNat (b0 != 0) (rest.take 4) < 4294967296 :=
    unpackNat_lt _ hl4 hwf4
  have hls4 : ((rest.drop 4).take 4).length = 4 := by
    simp [List.length_take, List.length_drop]
    omega
  have hwfs4 : ∀ x ∈ (rest.drop 4).take 4, x < 256 := fun x hx =>
    hwfr x (List.mem_of_mem_drop (List.mem_of_mem_take hx))
  have hS32 : unpackNat (b0 != 0) ((rest.drop 4).take 4) < 4294967296 :=
    unpackNat_lt _ hls4 hwfs4
  have hsm1 : Int.ofNat (unpackNat (b0 != 0) ((rest.drop 4).take 4)) ≠ -1 := by
    rw [Int.ofNat_eq_natCast]
    omega
  have htb : Nat.testBit (unpackNat (b0 != 0) (rest.take 4)) 29 = true := by
    by_contra hc
    exact hbit (and_bit29_eq_zero_of_clear (by simpa using hc))
  have htt : (rest.take 8).take 4 = rest.take 4 := by
    rw [List.take_take]
    norm_num
  have htd : (rest.take 8).drop 4 = (rest.drop 4).take 4 := by
    rw [List.drop_take]
  have hlenP : (natToBytes (b0 != 0) 4
      (unpackNat (b0 != 0) (rest.take 4) &&& 3758096383)).length = 4 :=
    length_natToBytes _ _ _
  refine ⟨Int.ofNat (unpackNat (b0 != 0) ((rest.drop 4).take 4)),
    .bin (b0 :: (natToBytes (b0 != 0) 4
      (unpackNat (b0 != 0) (rest.take 4) &&& 3758096383) ++ rest.drop 8)),
    rfl, ?_, ?_, ?_⟩
  · rw [mkWKB_bin_parse (Or.inl rfl)]
    rw [mkWKBFromHeader_none_set_read (by rw [htt]; exact hl4)
      (by rw [htd]; exact hls4) (by rw [htt]; exact hbit)]
    rw [htd]
  · rw [asWkb_bin_eval hl4]
    exact mkWKB_skipped hsm1
  · have htail4 : (natToBytes (b0 != 0) 4
        (unpackNat (b0 != 0) (rest.take 4) &&& 3758096383) ++
        rest.drop 8).take 4 =
        natToBytes (b0 != 0) 4
          (unpackNat (b0 != 0) (rest.take 4) &&& 3758096383) :=
      List.take_left' hlenP
    have htail4d : (natToBytes (b0 != 0) 4
        (unpackNat (b0 != 0) (rest.take 4) &&& 3758096383) ++
        rest.drop 8).drop 4 = rest.drop 8 :=
      List.drop_left' hlenP
    have hmask32 : unpackNat (b0 != 0) (rest.take 4) &&& 3758096383 <
        4294967296 :=
      lt_of_le_of_lt Nat.and_le_left hT32
    rw [asEwkb_bin_eval (by rw [Int.ofNat_eq_natCast]; omega)
      (by rw [Int.ofNat_eq_natCast]; exact_mod_cast hS32) hsm1
      (by rw [htail4]; exact hlenP)]
    rw [htail4, htail4d]
    rw [unpackNat_natToBytes _ hmask32]
    rw [set_after_clear_bit29 hT32 htb]
    rw [natToBytes_unpackNat _ hl4 hwf4]
    have hsnat : (Int.ofNat (unpackNat (b0 != 0) ((rest.drop 4).take 4))).toNat =
        unpackNat (b0 != 0) ((rest.drop 4).take 4) := Int.toNat_ofNat _
    rw [hsnat]
    rw [natToBytes_unpackNat _ hls4 hwfs4]
    have hre : rest.take 4 ++ (rest.drop 4).take 4 ++ rest.drop 8 = rest := by
      rw [List.append_assoc]
      have hdd : (rest.drop 4).drop 4 = rest.drop 8 := by
        rw [List.drop_drop]
      rw [← hdd, List.take_append_drop, List.take_append_drop]
    rw [hre]
    rw [mkWKB_bin_parse (Or.inr (Or.inr rfl))]
    exact mkWKBFromHeader_exttrue hsm1

/-- The constructor parses `unhexlify(data[:18])` whenever
`srid = -1 or extended in (None, True)` (hex payload). -/
theorem mkWKB_str_parse {h : List Char} {srid : Int} {extended : Option Bool}
    {hd : List Nat}
    (hcond : srid = -1 ∨ extended = none ∨ extended = some true)
    (hhex : unhexlify (h.take 18) = some hd) :
    mkWKBElement (.str h) srid extended =
      mkWKBFromHeader (.str h) srid extended hd := by
  unfold mkWKBElement
  rw [if_pos hcond]
  show (match unhexlify (h.take 18) with
    | none => Except.error PyErr.binasciiError
    | some header => mkWKBFromHeader (.str h) srid extended header) = _
  rw [hhex]

/-- Evaluation of `as_ewkb` on a non-extended hex element. -/
theorem asEwkb_str_eval {h : List Char} {b0 : Nat} {hdr : List Nat} {s : Int}
    (hs0 : 0 ≤ s) (hs32 : s < 4294967296) (hsm1 : s ≠ -1)
    (hhex : unhexlify (h.take 10) = some (b0 :: hdr))
    (hl4 : (hdr.take 4).length = 4) :
    WKBElement.asEwkb ⟨.str h, s, false⟩ =
      mkWKBElement (.str (h.take 2 ++ hexlify (natToBytes (b0 != 0) 4
          (unpackNat (b0 != 0) (hdr.take 4) ||| 536870912)) ++
        hexlify (natToBytes (b0 != 0) 4 s.toNat) ++ h.drop 10)) s
        (some true) := by
  simp only [WKBElement.asEwkb, wkbByteOrderAndType, intToBytes4, hhex]
  rw [if_pos ⟨by simp, hsm1⟩]
  rw [if_pos ⟨hs0, hs32⟩]
  rw [hl4]
  simp

/-- Evaluation of `as_wkb` on an extended hex element. -/
theorem asWkb_str_eval {h : List Char} {b0 : Nat} {hdr : List Nat} {s : Int}
    (hhex : unhexlify (h.take 10) = some (b0 :: hdr))
    (hl4 : (hdr.take 4).length = 4) :
    WKBElement.asWkb ⟨.str h, s, true⟩ =
      mkWKBElement (.str (h.take 2 ++ hexlify (natToBytes (b0 != 0) 4
          (unpackNat (b0 != 0) (hdr.take 4) &&& 3758096383)) ++ h.drop 18))
        s (some false) := by
  simp only [WKBElement.asWkb, wkbByteOrderAndType, hhex, if_true]
  rw [hl4]
  simp

/-- Round trip, direction 1, hex payload: inject then strip preserves the
canonical description. -/
theorem c1_dir1_str {h : List Char} {b0 : Nat} {rest : List Nat} {s : Int}
    (hu : unhexlify h = some (b0 :: rest)) (hr4 : 4 ≤ rest.length)
    (hs0 : 0 ≤ s) (hs32 : s < 4294967296)
    (hbit : unpackNat (b0 != 0) (rest.take 4) &&& 536870912 = 0) :
    ∃ d2 d3 : GeomData,
      mkWKBElement (.str h) s none = .ok ⟨.str h, s, false⟩ ∧
      WKBElement.asEwkb ⟨.str h, s, false⟩ = .ok ⟨d2, s, true⟩ ∧
      WKBElement.asWkb ⟨d2, s, true⟩ = .ok ⟨d3, s, false⟩ ∧
      WKBElement.desc ⟨d3, s, false⟩ = WKBElement.desc ⟨.str h, s, false⟩ := by
  have hsm1 : s ≠ -1 := by omega
  have hwfb : ∀ x ∈ b0 :: rest, x < 256 := unhexlify_mem_lt hu
  have hwfr : ∀ x ∈ rest, x < 256 := fun x hx =>
    hwfb x (List.mem_cons_of_mem _ hx)
  have hwf4 : ∀ x ∈ rest.take 4, x < 256 := fun x hx =>
    hwfr x (List.mem_of_mem_take hx)
  have hl4 : (rest.take 4).length = 4 := by
    simp [List.length_take]
    omega
  have htt44 : (rest.take 4).take 4 = rest.take 4 :=
    List.take_of_length_le (le_of_eq hl4)
  have hT32 : unpackNat (b0 != 0) (rest.take 4) < 4294967296 :=
    unpackNat_lt _ hl4 hwf4
  have hlenh : h.length = 2 * (b0 :: rest).length := unhexlify_length hu
  have htake18 : unhexlify (h.take 18) = some (b0 :: rest.take 8) := by
    have := unhexlify_take hu 9
    norm_num at this
    simpa using this
  have htake10 : unhexlify (h.take 10) = some (b0 :: rest.take 4) := by
    have := unhexlify_take hu 5
    norm_num at this
    simpa using this
  have htake2 : unhexlify (h.take 2) = some [b0] := by
    have := unhexlify_take hu 1
    norm_num at this
    simpa using this
  have hdrop10 : unhexlify (h.drop 10) = some (rest.drop 4) := by
    have := unhexlify_drop hu 5
    norm_num at this
    simpa using this
  have htt : (rest.take 8).take 4 = rest.take 4 := by
    rw [List.take_take]
    norm_num
  have hlenP : (natToBytes (b0 != 0) 4
      (unpackNat (b0 != 0) (rest.take 4) ||| 536870912)).length = 4 :=
    length_natToBytes _ _ _
  have hlenS : (natToBytes (b0 != 0) 4 s.toNat).length = 4 :=
    length_natToBytes _ _ _
  have hwfP : ∀ x ∈ natToBytes (b0 != 0) 4
      (unpackNat (b0 != 0) (rest.take 4) ||| 536870912), x < 256 :=
    fun x hx => mem_natToBytes_lt hx
  have hwfS : ∀ x ∈ natToBytes (b0 != 0) 4 s.toNat, x < 256 :=
    fun x hx => mem_natToBytes_lt hx
  have hlen2 : (h.take 2).length = 2 := by
    rw [List.length_take]
    simp at hlenh
    omega
  have hlenhex : ∀ bs : List Nat, (hexlify bs).length = 2 * bs.length :=
    hexlify_length
  have hlenhexP : (hexlify (natToBytes (b0 != 0) 4
      (unpackNat (b0 != 0) (rest.take 4) ||| 536870912))).length = 8 := by
    rw [hlenhex, hlenP]
  have hlenhexS : (hexlify (natToBytes (b0 != 0) 4 s.toNat)).length = 8 := by
    rw [hlenhex, hlenS]
  have hlen10 : (h.take 2 ++ hexlify (natToBytes (b0 != 0) 4
      (unpackNat (b0 != 0) (rest.take 4) ||| 536870912))).length = 10 := by
    rw [List.length_append, hlen2, hlenhexP]
  have hlen18 : (h.take 2 ++ hexlify (natToBytes (b0 != 0) 4
      (unpackNat (b0 != 0) (rest.take 4) ||| 536870912)) ++
      hexlify (natToBytes (b0 != 0) 4 s.toNat)).length = 18 := by
    rw [List.length_append, hlen10, hlenhexS]
  have hunhexAB : unhexlify (h.take 2 ++ hexlify (natToBytes (b0 != 0) 4
      (unpackNat (b0 != 0) (rest.take 4) ||| 536870912))) =
      some (b0 :: natToBytes (b0 != 0) 4
        (unpackNat (b0 != 0) (rest.take 4) ||| 536870912)) := by
    rw [unhexlify_append htake2, unhexlify_hexlify hwfP]
    rfl
  have hunhexABC : unhexlify ((h.take 2 ++ hexlify (natToBytes (b0 != 0) 4
      (unpackNat (b0 != 0) (rest.take 4) ||| 536870912))) ++
      hexlify (natToBytes (b0 != 0) 4 s.toNat)) =
      some (b0 :: (natToBytes (b0 != 0) 4
        (unpackNat (b0 != 0) (rest.take 4) ||| 536870912) ++
        natToBytes (b0 != 0) 4 s.toNat)) := by
    rw [unhexlify_append hunhexAB, unhexlify_hexlify hwfS]
    simp
  refine ⟨.str (h.take 2 ++ hexlify (natToBytes (b0 != 0) 4
      (unpackNat (b0 != 0) (rest.take 4) ||| 536870912)) ++
    hexlify (natToBytes (b0 != 0) 4 s.toNat) ++ h.drop 10),
    .str (h.take 2 ++ hexlify (rest.take 4) ++ h.drop 10), ?_, ?_, ?_, ?_⟩
  · rw [mkWKB_str_parse (Or.inr (Or.inl rfl)) htake18]
    exact mkWKBFromHeader_none_clear (by rw [htt]; exact hl4)
      (by rw [htt]; exact hbit)
  · rw [asEwkb_str_eval hs0 hs32 hsm1 htake10 (by rw [htt44]; exact hl4)]
    rw [htt44]
    have htk18 : (h.take 2 ++ hexlify (natToBytes (b0 != 0) 4
        (unpackNat (b0 != 0) (rest.take 4) ||| 536870912)) ++
        hexlify (natToBytes (b0 != 0) 4 s.toNat) ++ h.drop 10).take 18 =
        h.take 2 ++ hexlify (natToBytes (b0 != 0) 4
          (unpackNat (b0 != 0) (rest.take 4) ||| 536870912)) ++
        hexlify (natToBytes (b0 != 0) 4 s.toNat) :=
      List.take_left' hlen18
    rw [mkWKB_str_parse (Or.inr (Or.inr rfl)) (by rw [htk18]; exact hunhexABC)]
    exact mkWKBFromHeader_exttrue hsm1
  · have htk10 : (h.take 2 ++ hexlify (natToBytes (b0 != 0) 4
        (unpackNat (b0 != 0) (rest.take 4) ||| 536870912)) ++
        hexlify (natToBytes (b0 != 0) 4 s.toNat) ++ h.drop 10).take 10 =
        h.take 2 ++ hexlify (natToBytes (b0 != 0) 4
          (unpackNat (b0 != 0) (rest.take 4) ||| 536870912)) := by
      rw [List.append_assoc (h.take 2 ++ hexlify (natToBytes (b0 != 0) 4
        (unpackNat (b0 != 0) (rest.take 4) ||| 536870912)))]
      exact List.take_left' hlen10
    have hPtake : (natToBytes (b0 != 0) 4
        (unpackNat (b0 != 0) (rest.take 4) ||| 536870912)).take 4 =
        natToBytes (b0 != 0) 4
          (unpackNat (b0 != 0) (rest.take 4) ||| 536870912) :=
      List.take_of_length_le (le_of_eq hlenP)
    rw [asWkb_str_eval (by rw [htk10]; exact hunhexAB)
      (by rw [hPtake]; exact hlenP)]
    have htk2 : (h.take 2 ++ hexlify (natToBytes (b0 != 0) 4
        (unpackNat (b0 != 0) (rest.take 4) ||| 536870912)) ++
        hexlify (natToBytes (b0 != 0) 4 s.toNat) ++ h.drop 10).take 2 =
        h.take 2 := by
      rw [List.append_assoc (h.take 2 ++ hexlify (natToBytes (b0 != 0) 4
        (unpackNat (b0 != 0) (rest.take 4) ||| 536870912)))]
      rw [List.append_assoc (h.take 2)]
      exact List.take_left' hlen2
    have hdk18 : (h.take 2 ++ hexlify (natToBytes (b0 != 0) 4
        (unpackNat (b0 != 0) (rest.take 4) ||| 536870912)) ++
        hexlify (natToBytes (b0 != 0) 4 s.toNat) ++ h.drop 10).drop 18 =
        h.drop 10 :=
      List.drop_left' hlen18
    rw [htk2, hdk18, hPtake]
    rw [unpackNat_natToBytes _ (or_bit29_lt hT32)]
    rw [clear_after_set_bit29 hT32 (srid_bit_clear_of_and_eq_zero hbit)]
    rw [natToBytes_unpackNat _ hl4 hwf4]
    exact mkWKB_skipped hsm1
  · show lowerStr (h.take 2 ++ hexlify (rest.take 4) ++ h.drop 10) = lowerStr h
    have e1 : lowerStr (h.take 2) = hexlify [b0] := lowerStr_unhexlify htake2
    have e2 : lowerStr (hexlify (rest.take 4)) = hexlify (rest.take 4) :=
      lowerStr_hexlify _
    have e3 : lowerStr (h.drop 10) = hexlify (rest.drop 4) :=
      lowerStr_unhexlify hdrop10
    have e4 : lowerStr h = hexlify (b0 :: rest) := lowerStr_unhexlify hu
    unfold lowerStr at e1 e2 e3 e4 ⊢
    rw [List.map_append, List.map_append, e1, e2, e3, e4]
    rw [← hexlify_append, ← hexlify_append]
    congr 1
    rw [List.append_assoc, List.take_append_drop]
    rfl

/-- Round trip, direction 2, hex payload: a hex buffer with embedded SRID,
stripped and re-injected, has the same canonical description and SRID. -/
theorem c1_dir2_str {h : List Char} {b0 : Nat} {rest : List Nat}
    (hu : unhexlify h = some (b0 :: rest)) (hr8 : 8 ≤ rest.length)
    (hbit : unpackNat (b0 != 0) (rest.take 4) &&& 536870912 ≠ 0) :
    ∃ (s : Int) (d2 d3 : GeomData),
      s = Int.ofNat (unpackNat (b0 != 0) ((rest.drop 4).take 4)) ∧
      mkWKBElement (.str h) (-1) none = .ok ⟨.str h, s, true⟩ ∧
      WKBElement.asWkb ⟨.str h, s, true⟩ = .ok ⟨d2, s, false⟩ ∧
      WKBElement.asEwkb ⟨d2, s, false⟩ = .ok ⟨d3, s, true⟩ ∧
      WKBElement.desc ⟨d3, s, true⟩ = WKBElement.desc ⟨.str h, s, true⟩ := by
  have hwfb : ∀ x ∈ b0 :: rest, x < 256 := unhexlify_mem_lt hu
  have hwfr : ∀ x ∈ rest, x < 256 := fun x hx =>
    hwfb x (List.mem_cons_of_mem _ hx)
  have hwf4 : ∀ x ∈ rest.take 4, x < 256 := fun x hx =>
    hwfr x (List.mem_of_mem_take hx)
  have hl4 : (rest.take 4).length = 4 := by
    simp [List.length_take]
    omega
  have htt44 : (rest.take 4).take 4 = rest.take 4 :=
    List.take_of_length_le (le_of_eq hl4)
  have hT32 : unpackNat (b0 != 0) (rest.take 4) < 4294967296 :=
    unpackNat_lt _ hl4 hwf4
  have hls4 : ((rest.drop 4).take 4).length = 4 := by
    simp [List.length_take, List.length_drop]
    omega
  have hwfs4 : ∀ x ∈ (rest.drop 4).take 4, x < 256 := fun x hx =>
    hwfr x (List.mem_of_mem_drop (List.mem_of_mem_take hx))
  have hS32 : unpackNat (b0 != 0) ((rest.drop 4).take 4) < 4294967296 :=
    unpackNat_lt _ hls4 hwfs4
  have hsm1 : Int.ofNat (unpackNat (b0 != 0) ((rest.drop 4).take 4)) ≠ -1 := by
    rw [Int.ofNat_eq_natCast]
    omega
  have htb : Nat.testBit (unpackNat (b0 != 0) (rest.take 4)) 29 = true := by
    by_contra hc
    exact hbit (and_bit29_eq_zero_of_clear (by simpa using hc))
  have hmask32 : unpackNat (b0 != 0) (rest.take 4) &&& 3758096383 <
      4294967296 := lt_of_le_of_lt Nat.and_le_left hT32
  have htt : (rest.take 8).take 4 = rest.take 4 := by
    rw [List.take_take]
    norm_num
  have htd : (rest.take 8).drop 4 = (rest.drop 4).take 4 := by
    rw [List.drop_take]
  have hlenh : h.length = 2 * (b0 :: rest).length := unhexlify_length hu
  have hlen2 : (h.take 2).length = 2 := by
    rw [List.length_take]
    simp at hlenh
    omega
  have htake18 : unhexlify (h.take 18) = some (b0 :: rest.take 8) := by
    have := unhexlify_take hu 9
    norm_num at this
    simpa using this
  have htake10 : unhexlify (h.take 10) = some (b0 :: rest.take 4) := by
    have := unhexlify_take hu 5
    norm_num at this
    simpa using this
  have htake2 : unhexlify (h.take 2) = some [b0] := by
    have := unhexlify_take hu 1
    norm_num at this
    simpa using this
  have hdrop18 : unhexlify (h.drop 18) = some (rest.drop 8) := by
    have := unhexlify_drop hu 9
    norm_num at this
    simpa using this
  have hlenP : (natToBytes (b0 != 0) 4
      (unpackNat (b0 != 0) (rest.take 4) &&& 3758096383)).length = 4 :=
    length_natToBytes _ _ _
  have hwfP : ∀ x ∈ natToBytes (b0 != 0) 4
      (unpackNat (b0 != 0) (rest.take 4) &&& 3758096383), x < 256 :=
    fun x hx => mem_natToBytes_lt hx
  have hlenhexP : (hexlify (natToBytes (b0 != 0) 4
      (unpackNat (b0 != 0) (rest.take 4) &&& 3758096383))).length = 8 := by
    rw [hexlify_length, hlenP]
  have hlen10 : (h.take 2 ++ hexlify (natToBytes (b0 != 0) 4
      (unpackNat (b0 != 0) (rest.take 4) &&& 3758096383))).length = 10 := by
    rw [List.length_append, hlen2, hlenhexP]
  have hunhexAB : unhexlify (h.take 2 ++ hexlify (natToBytes (b0 != 0) 4
      (unpackNat (b0 != 0) (rest.take 4) &&& 3758096383))) =
      some (b0 :: natToBytes (b0 != 0) 4
        (unpackNat (b0 != 0) (rest.take 4) &&& 3758096383)) := by
    rw [unhexlify_append htake2, unhexlify_hexlify hwfP]
    rfl
  have hPtake : (natToBytes (b0 != 0) 4
      (unpackNat (b0 != 0) (rest.take 4) &&& 3758096383)).take 4 =
      natToBytes (b0 != 0) 4
        (unpackNat (b0 != 0) (rest.take 4) &&& 3758096383) :=
    List.take_of_length_le (le_of_eq hlenP)
  refine ⟨Int.ofNat (unpackNat (b0 != 0) ((rest.drop 4).take 4)),
    .str (h.take 2 ++ hexlify (natToBytes (b0 != 0) 4
      (unpackNat (b0 != 0) (rest.take 4) &&& 3758096383)) ++ h.drop 18),
    .str (h.take 2 ++ hexlify (rest.take 4) ++
      hexlify ((rest.drop 4).take 4) ++ h.drop 18),
    rfl, ?_, ?_, ?_, ?_⟩
  · rw [mkWKB_str_parse (Or.inl rfl) htake18]
    rw [mkWKBFromHeader_none_set_read (by rw [htt]; exact hl4)
      (by rw [htd]; exact hls4) (by rw [htt]; exact hbit)]
    rw [htd]
  · rw [asWkb_str_eval htake10 (by rw [htt44]; exact hl4)]
    rw [htt44]
    exact mkWKB_skipped hsm1
  · have htk10 : (h.take 2 ++ hexlify (natToBytes (b0 != 0) 4
        (unpackNat (b0 != 0) (rest.take 4) &&& 3758096383)) ++
        h.drop 18).take 10 =
        h.take 2 ++ hexlify (natToBytes (b0 != 0) 4
          (unpackNat (b0 != 0) (rest.take 4) &&& 3758096383)) :=
      List.take_left' hlen10
    rw [asEwkb_str_eval (by rw [Int.ofNat_eq_natCast]; omega)
      (by rw [Int.ofNat_eq_natCast]; exact_mod_cast hS32) hsm1
      (by rw [htk10]; exact hunhexAB) (by rw [hPtake]; exact hlenP)]
    have htk2 : (h.take 2 ++ hexlify (natToBytes (b0 != 0) 4
        (unpackNat (b0 != 0) (rest.take 4) &&& 3758096383)) ++
        h.drop 18).take 2 = h.take 2 := by
      rw [List.append_assoc (h.take 2)]
      exact List.take_left' hlen2
    have hdk10 : (h.take 2 ++ hexlify (natToBytes (b0 != 0) 4
        (unpackNat (b0 != 0) (rest.take 4) &&& 3758096383)) ++
        h.drop 18).drop 10 = h.drop 18 :=
      List.drop_left' hlen10
    rw [htk2, hdk10, hPtake]
    rw [unpackNat_natToBytes _ hmask32]
    rw [set_after_clear_bit29 hT32 htb]
    rw [natToBytes_unpackNat _ hl4 hwf4]
    have hsnat : (Int.ofNat (unpackNat (b0 != 0)
        ((rest.drop 4).take 4))).toNat =
        unpackNat (b0 != 0) ((rest.drop 4).take 4) := Int.toNat_ofNat _
    rw [hsnat]
    rw [natToBytes_unpackNat _ hls4 hwfs4]
    have hwfr4 : ∀ x ∈ rest.take 4, x < 256 := hwf4
    have hunB : unhexlify (h.take 2 ++ hexlify (rest.take 4)) =
        some (b0 :: rest.take 4) := by
      rw [unhexlify_append htake2, unhexlify_hexlify hwf4]
      rfl
    have hunBC : unhexlify ((h.take 2 ++ hexlify (rest.take 4)) ++
        hexlify ((rest.drop 4).take 4)) =
        some (b0 :: (rest.take 4 ++ (rest.drop 4).take 4)) := by
      rw [unhexlify_append hunB, unhexlify_hexlify hwfs4]
      simp
    have hlenB : (h.take 2 ++ hexlify (rest.take 4)).length = 10 := by
      rw [List.length_append, hlen2, hexlify_length, hl4]
    have hlenBC : ((h.take 2 ++ hexlify (rest.take 4)) ++
        hexlify ((rest.drop 4).take 4)).length = 18 := by
      rw [List.length_append, hlenB, hexlify_length, hls4]
    have htk18 : (h.take 2 ++ hexlify (rest.take 4) ++
        hexlify ((rest.drop 4).take 4) ++ h.drop 18).take 18 =
        h.take 2 ++ hexlify (rest.take 4) ++
          hexlify ((rest.drop 4).take 4) :=
      List.take_left' hlenBC
    rw [mkWKB_str_parse (Or.inr (Or.inr rfl)) (by rw [htk18]; exact hunBC)]
    exact mkWKBFromHeader_exttrue hsm1
  · show lowerStr (h.take 2 ++ hexlify (rest.take 4) ++
      hexlify ((rest.drop 4).take 4) ++ h.drop 18) = lowerStr h
    have e1 : lowerStr (h.take 2) = hexlify [b0] := lowerStr_unhexlify htake2
    have e2 : lowerStr (hexlify (rest.take 4)) = hexlify (rest.take 4) :=
      lowerStr_hexlify _
    have e3 : lowerStr (hexlify ((rest.drop 4).take 4)) =
        hexlify ((rest.drop 4).take 4) := lowerStr_hexlify _
    have e4 : lowerStr (h.drop 18) = hexlify (rest.drop 8) :=
      lowerStr_unhexlify hdrop18
    have e5 : lowerStr h = hexlify (b0 :: rest) := lowerStr_unhexlify hu
    unfold lowerStr at e1 e2 e3 e4 e5 ⊢
    rw [List.map_append, List.map_append, List.map_append, e1, e2, e3, e4, e5]
    rw [← hexlify_append, ← hexlify_append, ← hexlify_append]
    congr 1
    have hdd : (rest.drop 4).drop 4 = rest.drop 8 := by
      rw [List.drop_drop]
    rw [List.append_assoc, List.append_assoc, ← hdd, List.take_append_drop,
      List.take_append_drop]
    rfl

/-- C1 (corrected): for SRIDs in `[0, 2^32)` (rather than every `s ≠ -1`:
negative SRIDs make `struct.pack`/`int.to_bytes` raise, see the
counterexample), injecting the SRID into a non-extended buffer with
`as_ewkb` and stripping it again with `as_wkb` restores the original
buffer, and for a buffer with the SRID flag bit already set, stripping
with `as_wkb` and re-injecting with `as_ewkb` restores the canonical
description; in each of the four cases (bytes and hex payloads, both
directions) the SRID attribute is preserved throughout. -/
theorem claim_C1 :
    (∀ (b0 : Nat) (rest : List Nat) (s : Int),
      (∀ x ∈ b0 :: rest, x < 256) → 4 ≤ rest.length →
      0 ≤ s → s < 4294967296 →
      unpackNat (b0 != 0) (rest.take 4) &&& 536870912 = 0 →
      ∃ d2 : GeomData,
        mkWKBElement (.bin (b0 :: rest)) s none =
          .ok ⟨.bin (b0 :: rest), s, false⟩ ∧
        WKBElement.asEwkb ⟨.bin (b0 :: rest), s, false⟩ = .ok ⟨d2, s, true⟩ ∧
        WKBElement.asWkb ⟨d2, s, true⟩ =
          .ok ⟨.bin (b0 :: rest), s, false⟩) ∧
    (∀ (b0 : Nat) (rest : List Nat),
      (∀ x ∈ b0 :: rest, x < 256) → 8 ≤ rest.length →
      unpackNat (b0 != 0) (rest.take 4) &&& 536870912 ≠ 0 →
      ∃ (s : Int) (d2 : GeomData),
        s = Int.ofNat (unpackNat (b0 != 0) ((rest.drop 4).take 4)) ∧
        mkWKBElement (.bin (b0 :: rest)) (-1) none =
          .ok ⟨.bin (b0 :: rest), s, true⟩ ∧
        WKBElement.asWkb ⟨.bin (b0 :: rest), s, true⟩ =
          .ok ⟨d2, s, false⟩ ∧
        WKBElement.asEwkb ⟨d2, s, false⟩ =
          .ok ⟨.bin (b0 :: rest), s, true⟩) ∧
    (∀ (h : List Char) (b0 : Nat) (rest : List Nat) (s : Int),
      unhexlify h = some (b0 :: rest) → 4 ≤ rest.length →
      0 ≤ s → s < 4294967296 →
      unpackNat (b0 != 0) (rest.take 4) &&& 536870912 = 0 →
      ∃ d2 d3 : GeomData,
        mkWKBElement (.str h) s none = .ok ⟨.str h, s, false⟩ ∧
        WKBElement.asEwkb ⟨.str h, s, false⟩ = .ok ⟨d2, s, true⟩ ∧
        WKBElement.asWkb ⟨d2, s, true⟩ = .ok ⟨d3, s, false⟩ ∧
        WKBElement.desc ⟨d3, s, false⟩ = WKBElement.desc ⟨.str h, s, false⟩) ∧
    (∀ (h : List Char) (b0 : Nat) (rest : List Nat),
      unhexlify h = some (b0 :: rest) → 8 ≤ rest.length →
      unpackNat (b0 != 0) (rest.take 4) &&& 536870912 ≠ 0 →
      ∃ (s : Int) (d2 d3 : GeomData),
        s = Int.ofNat (unpackNat (b0 != 0) ((rest.drop 4).take 4)) ∧
        mkWKBElement (.str h) (-1) none = .ok ⟨.str h, s, true⟩ ∧
        WKBElement.asWkb ⟨.str h, s, true⟩ = .ok ⟨d2, s, false⟩ ∧
        WKBElement.asEwkb ⟨d2, s, false⟩ = .ok ⟨d3, s, true⟩ ∧
        WKBElement.desc ⟨d3, s, true⟩ = WKBElement.desc ⟨.str h, s, true⟩) :=
  ⟨fun _ _ _ hwf hr4 hs0 hs32 hbit => c1_dir1_bin hwf hr4 hs0 hs32 hbit,
   fun _ _ hwf hr8 hbit => c1_dir2_bin hwf hr8 hbit,
   fun _ _ _ _ hu hr4 hs0 hs32 hbit => c1_dir1_str hu hr4 hs0 hs32 hbit,
   fun _ _ _ hu hr8 hbit => c1_dir2_str hu hr8 hbit⟩

/-- C1 counterexample to the original claim: `s = -2` satisfies `s ≠ -1`
and the buffer is a valid non-extended WKB header, the element is
constructed without error, yet `as_ewkb` raises `struct.error` when packing
the negative SRID, so no round trip exists for this `s`. -/
theorem claim_C1_cx :
    mkWKBElement (.bin (1 :: ([1, 0, 0, 0] ++ List.replicate 16 0)))
        (-2) none =
      .ok ⟨.bin (1 :: ([1, 0, 0, 0] ++ List.replicate 16 0)), -2, false⟩ ∧
    WKBElement.asEwkb
        ⟨.bin (1 :: ([1, 0, 0, 0] ++ List.replicate 16 0)), -2, false⟩ =
      .error .structError := by
  constructor
  · rfl
  · rfl

/-- C1 witness: each of the four directions applied at a concrete
little-endian point buffer with SRID 4326. -/
theorem claim_C1_witness :
    (∃ d2 : GeomData,
      mkWKBElement (.bin (1 :: ([1, 0, 0, 0] ++ List.replicate 16 0)))
          4326 none =
        .ok ⟨.bin (1 :: ([1, 0, 0, 0] ++ List.replicate 16 0)), 4326, false⟩ ∧
      WKBElement.asEwkb
          ⟨.bin (1 :: ([1, 0, 0, 0] ++ List.replicate 16 0)), 4326, false⟩ =
        .ok ⟨d2, 4326, true⟩ ∧
      WKBElement.asWkb ⟨d2, 4326, true⟩ =
        .ok ⟨.bin (1 :: ([1, 0, 0, 0] ++ List.replicate 16 0)), 4326,
          false⟩) ∧
    (∃ (s : Int) (d2 : GeomData),
      s = Int.ofNat (unpackNat ((1 : Nat) != 0)
        ((([1, 0, 0, 32, 230, 16, 0, 0] ++ List.replicate 16 0).drop 4).take
          4)) ∧
      mkWKBElement
          (.bin (1 :: ([1, 0, 0, 32, 230, 16, 0, 0] ++ List.replicate 16 0)))
          (-1) none =
        .ok ⟨.bin (1 :: ([1, 0, 0, 32, 230, 16, 0, 0] ++
          List.replicate 16 0)), s, true⟩ ∧
      WKBElement.asWkb
          ⟨.bin (1 :: ([1, 0, 0, 32, 230, 16, 0, 0] ++ List.replicate 16 0)),
            s, true⟩ =
        .ok ⟨d2, s, false⟩ ∧
      WKBElement.asEwkb ⟨d2, s, false⟩ =
        .ok ⟨.bin (1 :: ([1, 0, 0, 32, 230, 16, 0, 0] ++
          List.replicate 16 0)), s, true⟩) ∧
    (∃ d2 d3 : GeomData,
      mkWKBElement
          (.str (hexlify (1 :: ([1, 0, 0, 0] ++ List.replicate 16 0))))
          4326 none =
        .ok ⟨.str (hexlify (1 :: ([1, 0, 0, 0] ++ List.replicate 16 0))),
          4326, false⟩ ∧
      WKBElement.asEwkb
          ⟨.str (hexlify (1 :: ([1, 0, 0, 0] ++ List.replicate 16 0))),
            4326, false⟩ =
        .ok ⟨d2, 4326, true⟩ ∧
      WKBElement.asWkb ⟨d2, 4326, true⟩ = .ok ⟨d3, 4326, false⟩ ∧
      WKBElement.desc ⟨d3, 4326, false⟩ =
        WKBElement.desc
          ⟨.str (hexlify (1 :: ([1, 0, 0, 0] ++ List.replicate 16 0))),
            4326, false⟩) ∧
    (∃ (s : Int) (d2 d3 : GeomData),
      s = Int.ofNat (unpackNat ((1 : Nat) != 0)
        ((([1, 0, 0, 32, 230, 16, 0, 0] ++ List.replicate 16 0).drop 4).take
          4)) ∧
      mkWKBElement
          (.str (hexlify (1 :: ([1, 0, 0, 32, 230, 16, 0, 0] ++
            List.replicate 16 0))))
          (-1) none =
        .ok ⟨.str (hexlify (1 :: ([1, 0, 0, 32, 230, 16, 0, 0] ++
          List.replicate 16 0))), s, true⟩ ∧
      WKBElement.asWkb
          ⟨.str (hexlify (1 :: ([1, 0, 0, 32, 230, 16, 0, 0] ++
            List.replicate 16 0))), s, true⟩ =
        .ok ⟨d2, s, false⟩ ∧
      WKBElement.asEwkb ⟨d2, s, false⟩ = .ok ⟨d3, s, true⟩ ∧
      WKBElement.desc ⟨d3, s, true⟩ =
        WKBElement.desc
          ⟨.str (hexlify (1 :: ([1, 0, 0, 32, 230, 16, 0, 0] ++
            List.replicate 16 0))), s, true⟩) :=
  ⟨claim_C1.1 1 ([1, 0, 0, 0] ++ List.replicate 16 0) 4326
      (by decide) (by decide) (by decide) (by decide) (by decide),
   claim_C1.2.1 1 ([1, 0, 0, 32, 230, 16, 0, 0] ++ List.replicate 16 0)
      (by decide) (by decide) (by decide),
   claim_C1.2.2.1 (hexlify (1 :: ([1, 0, 0, 0] ++ List.replicate 16 0)))
      1 ([1, 0, 0, 0] ++ List.replicate 16 0) 4326
      (by decide) (by decide) (by decide) (by decide) (by decide),
   claim_C1.2.2.2
      (hexlify (1 :: ([1, 0, 0, 32, 230, 16, 0, 0] ++ List.replicate 16 0)))
      1 ([1, 0, 0, 32, 230, 16, 0, 0] ++ List.replicate 16 0)
      (by decide) (by decide) (by decide)⟩

end Geo
